import Mathlib

/-!
Verification of the LLVM-backend lowering pass (src/coreclr/jit/llvmlower.cpp).

This file gives a shallow embedding of the pass in Lean 4 and proves the
properties stated in the specification against it.  The embedding follows
the source function by function:

* the front-end IR (GenTree nodes, basic blocks, LIR ranges, local-variable
  and exception-region tables) is represented as an arena of instruction
  records addressed by indices, with block ranges as lists of node ids;
* external infrastructure that is declared outside the excerpt (the
  signature/ABI oracles, the fault-registration oracle, the scratch-block
  splitter, and similar) is modelled from the specification; each such
  definition carries a doc comment saying so;
* fatal conditions (IMPL_LIMITATION, unreached contracts) are modelled with
  an Except monad.
-/

namespace LlvmLowering

/-! ## Core vocabulary: value types, operators, layouts -/

/-- The value types of IR nodes (var_types). Only the types this pass
distinguishes are modelled; TYP_I_IMPL is the target pointer-sized type. -/
inductive VarType
  | VOID | INT | LONG | I_IMPL | FLOAT | DOUBLE | REF | BYREF | STRUCT
  deriving DecidableEq, Repr

/-- Numeric value of the var_types enum tag (used by the deterministic hash;
the exact numbers are immaterial, only that the tag is a function of the
type). -/
def VarType.tag : VarType → Nat
  | .VOID => 0 | .INT => 1 | .LONG => 2 | .I_IMPL => 3 | .FLOAT => 4
  | .DOUBLE => 5 | .REF => 6 | .BYREF => 7 | .STRUCT => 8

/-- varTypeIsGC: true for TYP_REF and TYP_BYREF. -/
def varTypeIsGC (t : VarType) : Bool :=
  t == .REF || t == .BYREF

/-- genActualType. The sub-integer types are not modelled, so on the modelled
types normalization is the identity. -/
def genActualType (t : VarType) : VarType := t

/-- Instruction operators (genTreeOps). Only the operators this pass
dispatches on are modelled, plus GT_ADD and GT_CNS_INT which lowering
creates. -/
inductive GOper
  | LCL_VAR | LCL_FLD | LCL_ADDR | STORE_LCL_VAR | STORE_LCL_FLD
  | CALL | CATCH_ARG | IND | BLK | NULLCHECK | STOREIND | STORE_BLK
  | STORE_DYN_BLK | DIV | MOD | UDIV | UMOD | RETURN | LCLHEAP
  | FIELD_LIST | CNS_INT | ADD | INIT_VAL
  deriving DecidableEq, Repr

/-- Numeric value of the genTreeOps enum tag (input to the deterministic
hash). -/
def GOper.tag : GOper → Nat
  | .LCL_VAR => 0 | .LCL_FLD => 1 | .LCL_ADDR => 2 | .STORE_LCL_VAR => 3
  | .STORE_LCL_FLD => 4 | .CALL => 5 | .CATCH_ARG => 6 | .IND => 7
  | .BLK => 8 | .NULLCHECK => 9 | .STOREIND => 10 | .STORE_BLK => 11
  | .STORE_DYN_BLK => 12 | .DIV => 13 | .MOD => 14 | .UDIV => 15
  | .UMOD => 16 | .RETURN => 17 | .LCLHEAP => 18 | .FIELD_LIST => 19
  | .CNS_INT => 20 | .ADD => 21 | .INIT_VAL => 22

/-- A struct memory layout (ClassLayout). Layouts are interned by the
compiler, so identity comparison of layout pointers is meaningful; the
layoutId field models that identity. -/
structure ClassLayout where
  layoutId : Nat
  hasGCPtr : Bool := false
  size : Nat := 0
  deriving DecidableEq, Repr

instance : Inhabited ClassLayout := ⟨{ layoutId := 0 }⟩

/-! ## Exception-region synthesizer data model (AddUnhandledExceptionHandler) -/

/-- Basic-block control-flow kinds (BBjumpKinds); only the kinds this pass
inspects or produces. -/
inductive BBKind
  | normal | throw | ret | cond
  deriving DecidableEq, Repr

/-- bbCatchTyp values produced by the synthesizer. -/
inductive BBCatchTyp
  | filter | filterHandler
  deriving DecidableEq, Repr

/-- The one statement kind the synthesizer appends: the call to the
unhandled-exception helper consuming the catch argument. -/
inductive EhStmt
  | unhandledExceptionHelperCall
  deriving DecidableEq, Repr

/-- A basic block, as seen by the exception-region synthesizer. The bid
field is the block's stable identity (the BasicBlock pointer in the
source). -/
structure BasicBlock where
  bid : Nat
  kind : BBKind := .normal
  dontRemove : Bool := false
  tryBegFlag : Bool := false
  imported : Bool := false
  tryIndex : Option Nat := none
  hndIndex : Option Nat := none
  catchTyp : Option BBCatchTyp := none
  codeOffs : Nat := 0
  codeOffsEnd : Nat := 0
  stmts : List EhStmt := []
  deriving DecidableEq, Repr

/-- EH handler kinds (ebdHandlerType). -/
inductive EHHandlerType
  | hndFilter | hndCatch | hndFault | hndFinally
  deriving DecidableEq, Repr

/-- One exception-region descriptor (EHblkDsc). Block references are block
ids; NO_ENCLOSING_INDEX is modelled as none. -/
structure EHblkDsc where
  handlerType : EHHandlerType
  tryBeg : Nat
  tryLast : Nat
  filterBlk : Nat := 0
  hndBeg : Nat
  hndLast : Nat
  enclosingTryIndex : Option Nat := none
  enclosingHndIndex : Option Nat := none
  tryBegOffset : Nat := 0
  tryEndOffset : Nat := 0
  filterBegOffset : Nat := 0
  hndBegOffset : Nat := 0
  hndEndOffset : Nat := 0
  deriving DecidableEq, Repr

/-- The per-function state the synthesizer operates on: the block list
(fgFirstBB .. fgLastBB in order), the exception-region table, and a block-id
allocator. -/
structure EhState where
  isReversePInvoke : Bool
  blocks : List BasicBlock
  ehTable : List EHblkDsc
  nextBlockId : Nat
  deriving DecidableEq, Repr

/-- Update the block with the given id (blocks are referenced by pointer in
the source; the model rewrites the list entry with that identity). -/
def updateBlock (bs : List BasicBlock) (bid : Nat) (f : BasicBlock → BasicBlock) :
    List BasicBlock :=
  bs.map fun b => if b.bid = bid then f b else b

/-- Apply f to every block from the head of the list through the block with
id lastId inclusive, leaving the rest unchanged. This models the
Blocks(firstTryBlock, lastTryBlock) iteration, which starts at the first
block and stops after the given last block. -/
def mapThroughBlock (f : BasicBlock → BasicBlock) (lastId : Nat) :
    List BasicBlock → List BasicBlock
  | [] => []
  | b :: bs =>
    if b.bid = lastId then f b :: bs else f b :: mapThroughBlock f lastId bs

/-- Modelled from the spec: fgEnsureFirstBBisScratch, which is external to
the excerpt. It splits off a new empty first block (no try or handler
membership, synthesized, no IL offsets) so that the invariant that no two
protected regions share their first block can be upheld. -/
def ensureFirstBBisScratch (s : EhState) : EhState × Nat :=
  let scratch : BasicBlock := { bid := s.nextBlockId }
  ({ s with blocks := scratch :: s.blocks, nextBlockId := s.nextBlockId + 1 },
   s.nextBlockId)

/-- Llvm::AddUnhandledExceptionHandler: wraps a reverse-P/Invoke function's
body in a synthesized filter-protected region that catches unhandled
exceptions. Mirrors the source step for step. -/
def AddUnhandledExceptionHandler (s : EhState) : EhState :=
  if !s.isReversePInvoke then s
  else
    match s.blocks with
    | [] => s
    | b0 :: rest =>
      let lastTryBlock := (b0 :: rest).getLast (by simp)
      -- Make sure the first block is not in a protected region.
      let split : EhState × Nat :=
        if b0.tryIndex.isSome then ensureFirstBBisScratch s else (s, b0.bid)
      let s1 := split.1
      let firstTryId := split.2
      -- Create a block for the filter and the filter handler (fgNewBBafter
      -- with BBJ_THROW, placed after the last block).
      let filterId := s1.nextBlockId
      let handlerId := s1.nextBlockId + 1
      let filterBlock : BasicBlock := { bid := filterId, kind := .throw }
      let handlerBlock : BasicBlock := { bid := handlerId, kind := .throw }
      let blocks1 := s1.blocks ++ [filterBlock, handlerBlock]
      -- Add the new EH region at the end, since it is the least nested.
      let newEhIndex := s1.ehTable.length
      let firstTryBlockRec :=
        match (blocks1.find? fun b => b.bid = firstTryId) with
        | some b => b
        | none => b0
      let newEhDsc : EHblkDsc :=
        { handlerType := .hndFilter
          tryBeg := firstTryId
          tryLast := lastTryBlock.bid
          filterBlk := filterId
          hndBeg := handlerId
          hndLast := handlerId
          enclosingTryIndex := none
          enclosingHndIndex := none
          tryBegOffset := firstTryBlockRec.codeOffs
          tryEndOffset := lastTryBlock.codeOffsEnd
          filterBegOffset := 0
          hndBegOffset := 0
          hndEndOffset := 0 }
      let ehTable1 := s1.ehTable ++ [newEhDsc]
      -- Set flags on the try's first block, the filter and the handler.
      let blocks2 := updateBlock blocks1 firstTryId fun b =>
        { b with dontRemove := true, tryBegFlag := true, imported := true,
                 tryIndex := some newEhIndex, hndIndex := none }
      let blocks3 := updateBlock blocks2 filterId fun b =>
        { b with dontRemove := true, imported := true,
                 catchTyp := some .filter, tryIndex := none,
                 hndIndex := some newEhIndex }
      let blocks4 := updateBlock blocks3 handlerId fun b =>
        { b with dontRemove := true, imported := true,
                 catchTyp := some .filterHandler, tryIndex := none,
                 hndIndex := some newEhIndex }
      -- Walk the user code blocks and absorb previously try-less blocks.
      let blocks5 := mapThroughBlock
        (fun b => if b.tryIndex.isNone then { b with tryIndex := some newEhIndex } else b)
        lastTryBlock.bid blocks4
      -- Re-nest every pre-existing region that had no enclosing try.
      let ehTable2 :=
        (s1.ehTable.map fun d =>
          if d.enclosingTryIndex.isNone
          then { d with enclosingTryIndex := some newEhIndex } else d)
        ++ [newEhDsc]
      -- Synthesize the catch argument and the unhandled-exception helper
      -- call in the filter block.
      let blocks6 := updateBlock blocks5 filterId fun b =>
        { b with stmts := b.stmts ++ [.unhandledExceptionHelperCall] }
      { s1 with blocks := blocks6, ehTable := ehTable2 }

/-! ## The lowering driver (Llvm::Lower) -/

/-- The passes named by the lowering phase. assignShadowStackOffsets is the
shadow-stack offset assignment called at the end of lowerLocalsBeforeNodes;
lowerBlocks is the node-lowering dispatcher sweep. -/
inductive LoweringPass
  | initializeLlvmArgInfo
  | lowerSpillTempsLiveAcrossSafePoints
  | lowerLocalsBeforeNodes
  | assignShadowStackOffsets
  | lowerBlocks
  | lowerLocalsAfterNodes
  deriving DecidableEq, Repr

/-- The sequence of passes invoked by the driver Llvm::Lower, as written in
the source (taking the HEAD side of the unresolved merge conflict at lines
120-122; the other side invokes one pass fewer). The driver calls
initializeLlvmArgInfo, then lowerBlocks, then lowerLocalsAfterNodes; no call
to lowerSpillTempsLiveAcrossSafePoints or lowerLocalsBeforeNodes (and hence
assignShadowStackOffsets) appears anywhere in the translation unit. -/
def LlvmLowerPassTrace : List LoweringPass :=
  [.initializeLlvmArgInfo, .lowerBlocks, .lowerLocalsAfterNodes]

/-! ## Local-variable descriptors and lowerLocalsBeforeNodes -/

/-- Promotion status of a struct local (lvaGetPromotionType). -/
inductive PromotionType
  | notPromoted | independent | dependent
  deriving DecidableEq, Repr

/-- A local-variable descriptor (LclVarDsc). The isFuncletParameter and
varNeedsExplicitZeroInit fields record the answers of the external oracles
Llvm::isFuncletParameter and Compiler::fgVarNeedsExplicitZeroInit for this
local (both are declared outside the excerpt). -/
structure LclVarDsc where
  lvType : VarType := .INT
  layout : Option ClassLayout := none
  lvTracked : Bool := false
  lvLiveInOutOfHndlr : Bool := false
  lvIsParam : Bool := false
  lvHasExplicitInit : Bool := false
  lvRefCnt : Nat := 0
  lvImplicitlyReferenced : Bool := false
  promotionType : PromotionType := .notPromoted
  isFieldOfDependentlyPromoted : Bool := false
  lvFieldCnt : Nat := 0
  lvFieldLclStart : Nat := 0
  lvFldOffset : Nat := 0
  lvParentLcl : Nat := 0
  lvOnFrame : Bool := true
  isFuncletParameter : Bool := false
  varNeedsExplicitZeroInit : Bool := true
  canBeReplacedWithItsField : Bool := false
  deriving DecidableEq, Repr

instance : Inhabited LclVarDsc := ⟨{}⟩

/-- LclVarDsc::HasGCPtr: the local's storage contains GC pointers, either
because its type is itself a GC type or because its struct layout has GC
fields. -/
def LclVarDsc.HasGCPtr (d : LclVarDsc) : Bool :=
  varTypeIsGC d.lvType ||
    (match d.layout with | some l => l.hasGCPtr | none => false)

/-- lvRefCnt(): locals grabbed with an implicit use count as referenced. -/
def LclVarDsc.refCount (d : LclVarDsc) : Nat :=
  if d.lvImplicitlyReferenced then max 1 d.lvRefCnt else d.lvRefCnt

/-- The initializing values that lowerLocalsBeforeNodes emits into the
prolog (the argument of initializeLocalInProlog, which is external to the
excerpt and modelled from the spec as appending a prolog store). -/
inductive InitValue
  | fieldOfParent (parentLcl : Nat) (ty : VarType) (offset : Nat)
  | paramValue (lclNum : Nat)
  | zeroCon (ty : VarType)
  | zeroRefCon
  deriving DecidableEq, Repr

/-- State of the local-classification pass: the local table, the prolog
initializations emitted so far, and the accumulated shadow-stack local set.
(Read-only compiler facts — whether the function has funclets, whether
dynamic stack allocation was observed, and the target's dynamic-stack
strategy — are passed as parameters.) -/
structure LocalsState where
  lvaTable : Array LclVarDsc
  prolog : List (Nat × InitValue) := []
  shadowStackLocals : List Nat := []
  deriving DecidableEq, Repr

/-- One iteration of the field-initialization loop for an independently
promoted parameter: a referenced field gets a prolog store of a field
access into the parent parameter and is marked explicitly initialized. -/
def initOneParamField (lclNum fieldLclStart : Nat) (s : LocalsState) (index : Nat) :
    LocalsState :=
  let fieldLclNum := fieldLclStart + index
  let fieldVarDsc := s.lvaTable.getD fieldLclNum default
  if fieldVarDsc.lvRefCnt ≠ 0 then
    let pro := s.prolog ++
      [(fieldLclNum,
        InitValue.fieldOfParent lclNum fieldVarDsc.lvType fieldVarDsc.lvFldOffset)]
    let t := s.lvaTable.modify fieldLclNum fun d => { d with lvHasExplicitInit := true }
    { s with prolog := pro, lvaTable := t }
  else s

/-- Prolog initialization of the fields of an independently promoted
parameter. -/
def initIndependentlyPromotedParamFields (s : LocalsState) (lclNum : Nat) : LocalsState :=
  let varDsc := s.lvaTable.getD lclNum default
  (List.range varDsc.lvFieldCnt).foldl (initOneParamField lclNum varDsc.lvFieldLclStart) s

/-- The per-local body of the scan loop in lowerLocalsBeforeNodes. -/
def lowerOneLocalBeforeNodes (ehAnyFunclets : Bool) (s : LocalsState) (lclNum : Nat) :
    LocalsState :=
  let varDsc := s.lvaTable.getD lclNum default
  -- Initialize independently promoted field locals.
  let s :=
    if varDsc.lvIsParam && varDsc.promotionType == .independent then
      initIndependentlyPromotedParamFields s lclNum
    else s
  -- Untracked locals are conservatively live-in/out of handlers.
  let s :=
    if !varDsc.lvTracked && ehAnyFunclets then
      let t := s.lvaTable.modify lclNum fun d => { d with lvLiveInOutOfHndlr := true }
      { s with lvaTable := t }
    else s
  -- Re-read the descriptor: the source reads through the descriptor pointer
  -- and sees the mutation above.
  let varDsc := s.lvaTable.getD lclNum default
  if !varDsc.isFuncletParameter && (varDsc.HasGCPtr || varDsc.lvLiveInOutOfHndlr) then
    if varDsc.promotionType == .independent then s
    else if varDsc.isFieldOfDependentlyPromoted then s
    else if varDsc.refCount == 0 then s
    else
      let s :=
        if !varDsc.lvHasExplicitInit then
          if varDsc.lvIsParam then
            { s with prolog := s.prolog ++ [(lclNum, InitValue.paramValue lclNum)] }
          else if !varDsc.varNeedsExplicitZeroInit || varDsc.HasGCPtr then
            let zeroType :=
              if varDsc.lvType == .STRUCT then VarType.INT
              else genActualType varDsc.lvType
            { s with prolog := s.prolog ++ [(lclNum, InitValue.zeroCon zeroType)] }
          else s
        else s
      { s with shadowStackLocals := s.shadowStackLocals ++ [lclNum] }
  else
    let t := s.lvaTable.modify lclNum fun d => { d with lvOnFrame := false }
    { s with lvaTable := t }

/-- The full scan over all locals in declaration order. -/
def scanLocalsBeforeNodes (ehAnyFunclets : Bool) (s : LocalsState) : LocalsState :=
  (List.range s.lvaTable.size).foldl (lowerOneLocalBeforeNodes ehAnyFunclets) s

/-- Llvm::lowerLocalsBeforeNodes: classify locals for the shadow stack,
insert prolog initializations, and pad the shadow frame when the dynamic
stack is used but the computed slot set is empty. lclHeapUsed is the
m_lclHeapUsed flag recorded by the spiller; useDynamicStackForLclHeap is
the answer of the external doUseDynamicStackForLclHeap query (whether the
target couples the dynamic stack to the shadow stack). The final
assignShadowStackOffsets call packs byte offsets and is external to the
excerpt (it does not change the slot set). -/
def lowerLocalsBeforeNodes (ehAnyFunclets lclHeapUsed useDynamicStackForLclHeap : Bool)
    (s : LocalsState) : LocalsState :=
  let s := scanLocalsBeforeNodes ehAnyFunclets s
  if s.shadowStackLocals.length == 0 && lclHeapUsed && useDynamicStackForLclHeap then
    -- Pad out the shadow frame in methods that use the dynamic stack.
    let paddingLclNum := s.lvaTable.size
    let t := s.lvaTable.push { lvType := .REF, lvImplicitlyReferenced := true }
    let s := { s with lvaTable := t }
    let s := { s with prolog := s.prolog ++ [(paddingLclNum, InitValue.zeroRefCon)] }
    { s with shadowStackLocals := s.shadowStackLocals ++ [paddingLclNum] }
  else s

/-! ## GenTree nodes and the LIR arena -/

/-- Node identity: an index into the function's node arena (the GenTree
pointer in the source; the spec's design notes call for exactly this
arena-and-handle representation). -/
abbrev NodeId := Nat

/-- Well-known argument kinds this pass dispatches on. -/
inductive WellKnownArg
  | normalArg | thisPointer | retBuffer | instParam | virtualStubCell
  deriving DecidableEq, Repr

/-- CorInfoType values this pass produces or dispatches on. -/
inductive CorInfoType
  | UNDEF | VOID | INT | LONG | FLOAT | DOUBLE | PTR | BYREF | CLASS | STRUCT
  deriving DecidableEq, Repr

/-- Llvm::toCorInfoType, restricted to the modelled types. -/
def toCorInfoType : VarType → CorInfoType
  | .VOID => .VOID | .INT => .INT | .LONG => .LONG | .I_IMPL => .PTR
  | .FLOAT => .FLOAT | .DOUBLE => .DOUBLE | .REF => .CLASS | .BYREF => .BYREF
  | .STRUCT => .STRUCT

/-- JITtype2varType, restricted to the modelled types. -/
def jitTypeToVarType : CorInfoType → VarType
  | .UNDEF => .VOID | .VOID => .VOID | .INT => .INT | .LONG => .LONG
  | .FLOAT => .FLOAT | .DOUBLE => .DOUBLE | .PTR => .I_IMPL
  | .BYREF => .BYREF | .CLASS => .REF | .STRUCT => .STRUCT

/-- The runtime helpers named in the excerpt. -/
inductive CorInfoHelpFunc
  | RETHROW | OVERFLOW | LLVM_EH_UNHANDLED_EXCEPTION
  | LLVM_RESOLVE_INTERFACE_CALL_TARGET | JIT_PINVOKE_BEGIN | JIT_PINVOKE_END
  | OTHER (n : Nat)
  deriving DecidableEq, Repr

/-- gtCallType. -/
inductive CallKind
  | userFunc | indirect | helperCall
  deriving DecidableEq, Repr

/-- Per-argument bookkeeping (CallArg): the early argument node itself is
held in the call node's operand list at the same position; this record
carries the signature metadata and the AbiInfo outputs. -/
structure CallArgMeta where
  wellKnown : WellKnownArg := .normalArg
  sigCorType : CorInfoType := .UNDEF
  sigType : VarType := .INT
  sigClass : Option ClassLayout := none
  abiIsPointer : Bool := false
  abiArgType : VarType := .VOID
  deriving DecidableEq, Repr

/-- Call-specific fields of a GenTree node. fgIsThrow records the answer of
the external Compiler::fgIsThrow query (whether the call targets one of the
runtime's known throw helpers). entryPointSig models the result of
GetExternalMethodAccessor as the ABI-type signature it was keyed by. -/
structure CallInfo where
  argMeta : List CallArgMeta := []
  helper : Option CorInfoHelpFunc := none
  callKind : CallKind := .userFunc
  callAddr : Option NodeId := none
  controlExpr : Option NodeId := none
  noReturn : Bool := false
  tailCall : Bool := false
  virtualStub : Bool := false
  delegateInvoke : Bool := false
  unmanaged : Bool := false
  varargs : Bool := false
  needsNullCheck : Bool := false
  suppressGCTransition : Bool := false
  corInfoType : CorInfoType := .UNDEF
  retClsLayout : Option ClassLayout := none
  fgIsThrow : Bool := false
  entryPointSig : Option (List Nat) := none
  deriving DecidableEq, Repr

/-- An IR instruction (GenTree). operands is the node's use-edge list in
evaluation order; for calls it is the early argument list, parallel to
call.argMeta. -/
structure GenTree where
  oper : GOper
  vtype : VarType
  operands : List NodeId := []
  lclNum : Nat := 0
  lclOffs : Nat := 0
  conVal : Int := 0
  isHandle : Bool := false
  layout : Option ClassLayout := none
  contained : Bool := false
  lirMark : Bool := false
  unusedValue : Bool := false
  nonFaulting : Bool := false
  orderSideEff : Bool := false
  varUseasg : Bool := false
  regLlvm : Bool := false
  call : Option CallInfo := none
  deriving DecidableEq, Repr

instance : Inhabited GenTree := ⟨{ oper := .CNS_INT, vtype := .INT }⟩

/-- OperIsLocal. -/
def GOper.operIsLocal : GOper → Bool
  | .LCL_VAR | .LCL_FLD | .STORE_LCL_VAR | .STORE_LCL_FLD => true
  | _ => false

/-- Operators that do not produce a value in LIR (GTK_NOVALUE). -/
def GOper.operIsNoValue : GOper → Bool
  | .STORE_LCL_VAR | .STORE_LCL_FLD | .STOREIND | .STORE_BLK
  | .STORE_DYN_BLK | .RETURN | .NULLCHECK => true
  | _ => false

/-- GenTree::IsValue: produces a value usable by another node. -/
def GenTree.IsValue (t : GenTree) : Bool :=
  !t.oper.operIsNoValue && t.vtype != .VOID

/-- GenTree::IsIconHandle. -/
def GenTree.IsIconHandle (t : GenTree) : Bool :=
  t.oper == .CNS_INT && t.isHandle

/-- gtArgs.HasRetBuffer. -/
def GenTree.hasRetBuffer (t : GenTree) : Bool :=
  match t.call with
  | some ci => ci.argMeta.any (·.wellKnown == .retBuffer)
  | none => false

/-- gtArgs.GetRetBufferArg()->GetNode(): the operand at the return-buffer
argument's position. -/
def GenTree.retBufferArgNode (t : GenTree) : NodeId :=
  match t.call with
  | some ci =>
    match ci.argMeta.findIdx? (·.wellKnown == .retBuffer) with
    | some i => t.operands.getD i 0
    | none => 0
  | none => 0

/-- Modelled from the spec: isPotentialGcSafePoint is declared outside the
excerpt; per the spec a potential collection point is a call ("calls and
similar"). -/
def isPotentialGcSafePoint (t : GenTree) : Bool :=
  t.oper == .CALL

/-- LIR::Range insertion before an anchor node (no-op if the anchor is not
in the range, which cannot happen in the source). -/
def insertBeforeNode (range : List NodeId) (anchor newId : NodeId) : List NodeId :=
  match range with
  | [] => []
  | x :: xs =>
    if x = anchor then newId :: x :: xs else x :: insertBeforeNode xs anchor newId

/-- LIR::Range insertion after an anchor node. -/
def insertAfterNode (range : List NodeId) (anchor newId : NodeId) : List NodeId :=
  match range with
  | [] => []
  | x :: xs =>
    if x = anchor then x :: newId :: xs else x :: insertAfterNode xs anchor newId

/-! ## The GC-liveness spiller (lowerSpillTempsLiveAcrossSafePoints) -/

namespace DeterministicNodeHashInfo

/-- DeterministicNodeHashInfo::Equals — plain identity of nodes. -/
def Equals (left right : NodeId) : Bool :=
  left == right

/-- DeterministicNodeHashInfo::GetHashCode — the XOR of the node's value
type tag and operator tag. Raw node pointers cannot be used as their values
would influence hash-table iteration order. -/
def GetHashCode (node : GenTree) : Nat :=
  Nat.xor node.vtype.tag node.oper.tag

end DeterministicNodeHashInfo

/-- Remove the entry with the given key from the live-set, returning the
removed value if present (SmallHashTable::TryRemove). -/
def liveTryRemove (live : List (NodeId × Option Nat)) (k : NodeId) :
    Option (Option Nat) × List (NodeId × Option Nat) :=
  match live with
  | [] => (none, [])
  | (k', v) :: rest =>
    if k' = k then (some v, rest)
    else
      let r := liveTryRemove rest k
      (r.1, (k', v) :: r.2)

/-- SmallHashTable::AddOrUpdate: update in place if the key is present,
otherwise append in insertion order. -/
def liveAddOrUpdate (live : List (NodeId × Option Nat)) (k : NodeId) (v : Option Nat) :
    List (NodeId × Option Nat) :=
  match live with
  | [] => [(k, v)]
  | (k', v') :: rest =>
    if k' = k then (k, v) :: rest else (k', v') :: liveAddOrUpdate rest k v

/-- SmallHashTable::TryGetValue. -/
def liveLookup (live : List (NodeId × Option Nat)) (k : NodeId) : Option (Option Nat) :=
  (live.find? (·.1 == k)).map (·.2)

/-- Stable insertion into a key-sorted list. -/
def insertSortedByKey (key : NodeId → Nat) (x : NodeId) : List NodeId → List NodeId
  | [] => [x]
  | y :: ys =>
    if key x ≤ key y then x :: y :: ys else y :: insertSortedByKey key x ys

/-- Stable sort by key: the iteration order of the live-set hash table, a
deterministic function of the entries' hash codes and insertion order. -/
def sortByKey (key : NodeId → Nat) (l : List NodeId) : List NodeId :=
  l.foldr (insertSortedByKey key) []

/-- The mutable state threaded through the spiller: the node arena, the
local table, the live GC-def set, and the two spill-slot free-lists. -/
structure SpState where
  arena : Array GenTree
  lvaTable : Array LclVarDsc
  liveGcDefs : List (NodeId × Option Nat) := []
  spillLclsRef : List Nat := []
  spillLclsByref : List Nat := []
  lclHeapUsed : Bool := false
  deriving DecidableEq, Repr

/-- getSpillLcl: reuse a pooled slot of the matching GC-pointer kind, or
grab a fresh temp (always fresh for aggregates, with the node's layout).
Types other than REF/BYREF/STRUCT are unreached() in the source, since only
such definitions are recorded live. -/
def getSpillLcl (st : SpState) (node : GenTree) : SpState × Nat :=
  let popped : SpState × Option Nat × Option ClassLayout :=
    match node.vtype with
    | .REF =>
      match st.spillLclsRef with
      | l :: ls => ({ st with spillLclsRef := ls }, some l, none)
      | [] => (st, none, none)
    | .BYREF =>
      match st.spillLclsByref with
      | l :: ls => ({ st with spillLclsByref := ls }, some l, none)
      | [] => (st, none, none)
    | .STRUCT => (st, none, node.layout)
    | _ => (st, none, none)
  match popped with
  | (st', some l, _) => (st', l)
  | (st', none, layout) =>
    let lclNum := st'.lvaTable.size
    let desc : LclVarDsc :=
      { lvType := node.vtype,
        layout := if node.vtype == .STRUCT then layout else none }
    ({ st' with lvaTable := st'.lvaTable.push desc }, lclNum)

/-- releaseSpillLcl: return a slot to the free-list of its pointer kind. -/
def releaseSpillLcl (st : SpState) (lclNum : Nat) : SpState :=
  let varDsc := st.lvaTable.getD lclNum default
  if varDsc.lvType == .REF then
    { st with spillLclsRef := lclNum :: st.spillLclsRef }
  else if varDsc.lvType == .BYREF then
    { st with spillLclsByref := lclNum :: st.spillLclsByref }
  else st

/-- isGcTemp: the node defines a GC-relevant temporary value that must be
visible to the collector: a raw REF/BYREF, or a struct whose layout has GC
pointers and which is not a dereference; locals, local addresses and frozen
constant handles are excluded. -/
def isGcTemp (node : GenTree) : Bool :=
  if varTypeIsGC node.vtype || node.vtype == .STRUCT then
    if node.vtype == .STRUCT &&
        (node.oper == .IND || !(node.layout.getD default).hasGCPtr) then
      false
    else
      !node.oper.operIsLocal && node.oper != .LCL_ADDR && !node.IsIconHandle
  else false

/-- spillValue: if the definition has not been assigned a slot yet, allocate
one and insert a store of the definition to it immediately after the
defining node. Returns the updated state, range, and slot. -/
def spillValue (st : SpState) (range : List NodeId) (defId : NodeId)
    (pSpillLclNum : Option Nat) : SpState × List NodeId × Option Nat :=
  match pSpillLclNum with
  | some l => (st, range, some l)
  | none =>
    let defNode := st.arena.getD defId default
    let r := getSpillLcl st defNode
    let st' := r.1
    let spillLclNum := r.2
    let store : GenTree :=
      { oper := .STORE_LCL_VAR,
        vtype := (st'.lvaTable.getD spillLclNum default).lvType,
        operands := [defId], lclNum := spillLclNum }
    let storeId := st'.arena.size
    let st'' := { st' with arena := st'.arena.push store }
    (st'', insertAfterNode range defId storeId, some spillLclNum)

/-- Process one use edge of a user node: contained operands are pushed for
later processing; live operands are consumed, with spilled ones replaced by
a load from their slot inserted immediately before the user, the slot
returned to its free-list, and the liveness mark cleared. -/
def processOneEdge (st : SpState) (range : List NodeId) (user : NodeId) (i : Nat)
    (pushed : List NodeId) : SpState × List NodeId × List NodeId :=
  let operandId := (st.arena.getD user default).operands.getD i 0
  let operand := st.arena.getD operandId default
  if operand.contained then
    (st, range, operandId :: pushed)
  else if operand.lirMark then
    let rem := liveTryRemove st.liveGcDefs operandId
    let st := { st with liveGcDefs := rem.2 }
    let str :=
      match rem.1 with
      | some (some spillLclNum) =>
        let lclVarNode : GenTree :=
          { oper := .LCL_VAR,
            vtype := (st.lvaTable.getD spillLclNum default).lvType,
            lclNum := spillLclNum }
        let loadId := st.arena.size
        let st := { st with arena := st.arena.push lclVarNode }
        let ar := st.arena.modify user fun u => { u with operands := u.operands.set i loadId }
        let st := { st with arena := ar }
        let range := insertBeforeNode range user loadId
        (releaseSpillLcl st spillLclNum, range)
      | _ => (st, range)
    let ar2 := str.1.arena.modify operandId fun o => { o with lirMark := false }
    let st := { str.1 with arena := ar2 }
    (st, str.2, pushed)
  else (st, range, pushed)

/-- Process all use edges of one user node, accumulating pushed contained
operands (most recently pushed first, matching the ArrayStack). -/
def processUserEdges (st : SpState) (range : List NodeId) (user : NodeId) :
    SpState × List NodeId × List NodeId :=
  let n := (st.arena.getD user default).operands.length
  (List.range n).foldl
    (fun acc i => processOneEdge acc.1 acc.2.1 user i acc.2.2)
    (st, range, [])

/-- The worklist loop over a node and its contained operands (field lists).
The fuel bounds the loop; it is always sufficient in well-formed IR where
containment is acyclic. -/
def processUsesWorklist : Nat → SpState → List NodeId → List NodeId →
    SpState × List NodeId
  | _, st, range, [] => (st, range)
  | 0, st, range, _ :: _ => (st, range)
  | fuel + 1, st, range, user :: rest =>
    let r := processUserEdges st range user
    processUsesWorklist fuel r.1 r.2.1 (r.2.2 ++ rest)

/-- Force-spill every currently live definition at a safe point, iterating
the live set in hash-table order and recording the assigned slots. -/
def forceSpillLive (keyHash : Array GenTree → NodeId → Nat) (st : SpState)
    (range : List NodeId) : SpState × List NodeId :=
  let order := sortByKey (keyHash st.arena) (st.liveGcDefs.map Prod.fst)
  order.foldl
    (fun acc k =>
      let cur := (liveLookup acc.1.liveGcDefs k).getD none
      let r := spillValue acc.1 acc.2 k cur
      ({ r.1 with liveGcDefs := liveAddOrUpdate r.1.liveGcDefs k r.2.2 }, r.2.1))
    (st, range)

/-- The per-node body of the spiller's walk. -/
def spillProcessNode (keyHash : Array GenTree → NodeId → Nat) (st : SpState)
    (range : List NodeId) (nid : NodeId) : SpState × List NodeId :=
  let node := st.arena.getD nid default
  let st := if node.oper == .LCLHEAP then { st with lclHeapUsed := true } else st
  if node.contained then (st, range)
  else
    -- Calls with return buffer pointers need them pinned.
    let str1 : SpState × List NodeId :=
      if node.oper == .CALL && node.hasRetBuffer then
        let retBufId := node.retBufferArgNode
        let retBuf := st.arena.getD retBufId default
        if retBuf.lirMark then
          let cur := (liveLookup st.liveGcDefs retBufId).getD none
          let r := spillValue st range retBufId cur
          ({ r.1 with liveGcDefs := liveAddOrUpdate r.1.liveGcDefs retBufId r.2.2 },
           r.2.1)
        else (st, range)
      else (st, range)
    let r2 := processUsesWorklist (str1.1.arena.size + 1) str1.1 str1.2 [nid]
    let str3 :=
      if isPotentialGcSafePoint node && r2.1.liveGcDefs.length != 0 then
        forceSpillLive keyHash r2.1 r2.2
      else r2
    if node.IsValue && !node.unusedValue && isGcTemp node then
      ({ str3.1 with
          arena := str3.1.arena.modify nid (fun n => { n with lirMark := true }),
          liveGcDefs := liveAddOrUpdate str3.1.liveGcDefs nid none },
       str3.2)
    else str3

/-- Walk one block's range. The iteration visits the nodes present at entry;
nodes inserted by spilling sit behind the cursor and are not re-visited,
matching LIR iteration. -/
def spillProcessRange (keyHash : Array GenTree → NodeId → Nat) (st : SpState)
    (range : List NodeId) : SpState × List NodeId :=
  range.foldl (fun acc nid => spillProcessNode keyHash acc.1 acc.2 nid) (st, range)

/-- A function as seen by the spiller: the node arena, the per-block LIR
ranges, and the local table. -/
structure SpFunc where
  arena : Array GenTree
  blocks : List (List NodeId)
  lvaTable : Array LclVarDsc
  lclHeapUsed : Bool := false
  deriving DecidableEq, Repr

/-- The spiller's result: the rewritten function plus the final contents of
the two spill-slot free-lists and of the live set. -/
structure SpillOutcome where
  func : SpFunc
  spillLclsRef : List Nat
  spillLclsByref : List Nat
  liveGcDefs : List (NodeId × Option Nat)
  deriving DecidableEq, Repr

/-- The spiller parameterized by the hash-table key info used for the live
set (the source instantiates it with DeterministicNodeHashInfo). -/
def lowerSpillTempsWithKeyInfo (keyHash : Array GenTree → NodeId → Nat)
    (f : SpFunc) : SpillOutcome :=
  let st0 : SpState :=
    { arena := f.arena, lvaTable := f.lvaTable, lclHeapUsed := f.lclHeapUsed }
  let r := f.blocks.foldl
    (fun acc blockRange =>
      let pr := spillProcessRange keyHash acc.1 blockRange
      (pr.1, acc.2 ++ [pr.2]))
    (st0, ([] : List (List NodeId)))
  { func := { arena := r.1.arena, blocks := r.2, lvaTable := r.1.lvaTable,
              lclHeapUsed := r.1.lclHeapUsed },
    spillLclsRef := r.1.spillLclsRef,
    spillLclsByref := r.1.spillLclsByref,
    liveGcDefs := r.1.liveGcDefs }

/-- The key hash actually used: DeterministicNodeHashInfo::GetHashCode of
the node's content. -/
def deterministicKeyHash (arena : Array GenTree) (nid : NodeId) : Nat :=
  DeterministicNodeHashInfo.GetHashCode (arena.getD nid default)

/-- Llvm::lowerSpillTempsLiveAcrossSafePoints. -/
def lowerSpillTempsLiveAcrossSafePoints (f : SpFunc) : SpillOutcome :=
  lowerSpillTempsWithKeyInfo deterministicKeyHash f

/-- A run of the spiller on a concrete machine, where the allocator has
placed the IR nodes at the given memory addresses. Because the live-set
hash table is keyed by DeterministicNodeHashInfo and identity rather than
by the raw node pointers, the addresses do not enter the computation. -/
def lowerSpillTempsOnMachineRun (nodeAddresses : NodeId → Nat) (f : SpFunc) :
    SpillOutcome :=
  lowerSpillTempsLiveAcrossSafePoints f

/-! ## Node-lowering dispatcher state -/

/-- Fault kinds registered with the fault-registration oracle (SCK_*). -/
inductive FaultKind
  | nullRef | divByZero | arithOverflow
  deriving DecidableEq, Repr

/-- Fatal conditions: an IMPL_LIMITATION report (aborts compilation of the
method) or a violated unreached/assert contract. -/
inductive LowerFatal
  | implLimitation (msg : String)
  | unreached
  deriving DecidableEq, Repr

/-- The external oracles consumed by call lowering (signature/ABI queries,
the null-ness analysis, the EE info offsets, the partial-store size query).
All are declared outside the excerpt and are black boxes to this pass. -/
structure Oracles where
  addrCouldBeNull : GenTree → Bool
  getLlvmTypeForStruct : ClassLayout → Nat
  getLlvmReturnType : CorInfoType → Option ClassLayout → CorInfoType
  getLlvmArgTypeForArg : CorInfoType → Option ClassLayout → CorInfoType
  getLlvmArgTypeForCallArg : CallArgMeta → CorInfoType
  helperSigRetType : CorInfoHelpFunc → CorInfoType
  helperSigArgType : CorInfoHelpFunc → Nat → CorInfoType
  helperSigArgClass : CorInfoHelpFunc → Nat → Option ClassLayout
  getAbiTypeForType : VarType → Nat
  isPartialLclFld : GenTree → LclVarDsc → Bool
  offsetOfDelegateInstance : Nat
  offsetOfDelegateFirstTarget : Nat

/-- The state seen by the per-node lowering handlers: the node arena, the
current block's range and kind (m_currentBlock / m_currentRange), the
block's handler membership and the handler-kind table, the local table, the
faults registered for the current block, and ambient function data. -/
structure LowState where
  arena : Array GenTree
  range : List NodeId
  blockKind : BBKind := .normal
  blockHndIndex : Option Nat := none
  ehHandlers : List EHHandlerType := []
  lvaTable : Array LclVarDsc := #[]
  faultRefs : List FaultKind := []
  shadowStackLclNum : Nat := 0
  lclHeapUsed : Bool := false
  lvaInlinedPInvokeFrameVar : Nat := 0
  oracles : Oracles

/-- Fetch a node from the arena. -/
def LowState.node (st : LowState) (nid : NodeId) : GenTree :=
  st.arena.getD nid default

/-- Allocate a new node (the compiler's node allocator), returning its id. -/
def LowState.pushNode (st : LowState) (t : GenTree) : LowState × NodeId :=
  ({ st with arena := st.arena.push t }, st.arena.size)

/-- Mutate a node in place (nodes are referenced by pointer in the source). -/
def LowState.modifyNode (st : LowState) (nid : NodeId) (f : GenTree → GenTree) :
    LowState :=
  { st with arena := st.arena.modify nid f }

/-- CurrentRange().InsertBefore. -/
def LowState.insertBefore (st : LowState) (anchor nid : NodeId) : LowState :=
  { st with range := insertBeforeNode st.range anchor nid }

/-- CurrentRange().InsertAfter. -/
def LowState.insertAfter (st : LowState) (anchor nid : NodeId) : LowState :=
  { st with range := insertAfterNode st.range anchor nid }

/-- The call info of a node (empty if the node is not a call). -/
def LowState.callInfo (st : LowState) (nid : NodeId) : CallInfo :=
  (st.node nid).call.getD {}

/-- The index of the first argument with the given well-known kind. -/
def LowState.findArgIdx (st : LowState) (nid : NodeId) (w : WellKnownArg) :
    Option Nat :=
  (st.callInfo nid).argMeta.findIdx? (·.wellKnown == w)

/-! ## Simple handlers: getCatchArgOffset, lowerIndir, lowerCatchArg,
lowerRethrow -/

/-- Llvm::getCatchArgOffset: the exception object is communicated at offset
zero of the shadow frame. -/
def getCatchArgOffset : Nat := 0

/-- Llvm::insertShadowStackAddr: materialize the address shadow-stack +
offset before the given node; at offset zero this is just the shadow-stack
pointer itself. Returns the address node. -/
def insertShadowStackAddr (st : LowState) (insertBeforeId : NodeId)
    (offset : Nat) (shadowStackLclNum : Nat) : LowState × NodeId :=
  let p := st.pushNode { oper := .LCL_VAR, vtype := .I_IMPL, lclNum := shadowStackLclNum }
  let st := p.1.insertBefore insertBeforeId p.2
  if offset = 0 then (st, p.2)
  else
    let q := st.pushNode { oper := .CNS_INT, vtype := .I_IMPL, conVal := (offset : Int) }
    let st := q.1.insertBefore insertBeforeId q.2
    let r := st.pushNode { oper := .ADD, vtype := .I_IMPL, operands := [p.2, q.2] }
    let st := r.1.insertBefore insertBeforeId r.2
    (st, r.2)

/-- Llvm::lowerIndir: unless the indirection is marked non-faulting,
register a null-reference fault possibility for the current block (the
fgAddCodeRef fault-registration oracle, modelled as appending to the
current block's fault list). -/
def lowerIndir (st : LowState) (nid : NodeId) : LowState :=
  if ((st.node nid).nonFaulting) = false then
    { st with faultRefs := st.faultRefs ++ [.nullRef] }
  else st

/-- Llvm::lowerCatchArg: rewrite GT_CATCH_ARG into a non-faulting
indirection of the shadow-stack address at the catch-arg offset. -/
def lowerCatchArg (st : LowState) (nid : NodeId) : LowState :=
  let r := insertShadowStackAddr st nid getCatchArgOffset st.shadowStackLclNum
  r.1.modifyNode nid fun n =>
    { n with oper := .IND, nonFaulting := true, operands := [r.2] }

/-- Modelled from the spec: EHblkDsc::HasCatchHandler is declared outside
the excerpt; per the spec the rethrow rejection keys on whether the current
exception handler is a catch handler (nested rethrow inside a filter or
finally is unsupported). -/
def EHHandlerType.HasCatchHandler : EHHandlerType → Bool
  | .hndCatch => true
  | _ => false

/-- Llvm::lowerRethrow: reject with a fatal implementation limitation unless
the current handler is a catch handler; otherwise prepend the
exception-object address (shadow stack at the catch-arg offset) as an
explicit first argument of pointer type. -/
def lowerRethrow (st : LowState) (callId : NodeId) : Except LowerFatal LowState :=
  match st.blockHndIndex with
  | none => .error .unreached
  | some hndIndex =>
    match st.ehHandlers.get? hndIndex with
    | none => .error .unreached
    | some handlerType =>
      if !handlerType.HasCatchHandler then
        .error (.implLimitation "Nested rethrow")
      else
        -- assert(callNode->gtArgs.IsEmpty()) holds here in the source
        let r := insertShadowStackAddr st callId getCatchArgOffset st.shadowStackLclNum
        let newMeta : CallArgMeta := { sigCorType := .PTR }
        let st := r.1.modifyNode callId fun n =>
          { n with operands := r.2 :: n.operands,
                   call := n.call.map (fun ci => { ci with argMeta := newMeta :: ci.argMeta }) }
        .ok st

/-! ## The struct-use normalizer and local-variable helpers -/

/-- LIR::Use::ReplaceWithLclVar (external infrastructure): store the defined
value to a fresh temp right after its definition and replace the use with a
read of that temp inserted before the user. Returns the new local's
number. The model keeps the defined node's layout on the new nodes so that
GetLayout on them resolves as through the local table. -/
def replaceWithLclVar (st : LowState) (userId : NodeId) (edgeIdx : Nat) :
    LowState × Nat :=
  let defId := (st.node userId).operands.getD edgeIdx 0
  let defNode := st.node defId
  let lclNum := st.lvaTable.size
  let desc : LclVarDsc := { lvType := defNode.vtype, layout := defNode.layout }
  let st := { st with lvaTable := st.lvaTable.push desc }
  let p := st.pushNode
    { oper := .STORE_LCL_VAR, vtype := defNode.vtype, operands := [defId],
      lclNum := lclNum, layout := defNode.layout }
  let st := p.1.insertAfter defId p.2
  let q := st.pushNode
    { oper := .LCL_VAR, vtype := defNode.vtype, lclNum := lclNum,
      layout := defNode.layout }
  let st := q.1.insertBefore userId q.2
  let st := st.modifyNode userId fun u =>
    { u with operands := u.operands.set edgeIdx q.2 }
  (st, lclNum)

/-- Llvm::normalizeStructUse: retype the use at the given edge to the exact
target layout when its current layout produces a different low-level type:
in-place for GT_BLK/GT_LCL_FLD, via SetOper for GT_LCL_VAR, and through a
fresh temporary (then as GT_LCL_FLD) for call results. Returns the possibly
replaced node. -/
def normalizeStructUse (st : LowState) (userId : NodeId) (edgeIdx : Nat)
    (layout : ClassLayout) : Except LowerFatal (LowState × NodeId) :=
  let nodeId := (st.node userId).operands.getD edgeIdx 0
  let node := st.node nodeId
  -- assert(node->TypeIs(TYP_STRUCT))
  let useLayout := node.layout.getD default
  if useLayout ≠ layout ∧
      st.oracles.getLlvmTypeForStruct useLayout ≠ st.oracles.getLlvmTypeForStruct layout then
    match node.oper with
    | .BLK =>
      .ok (st.modifyNode nodeId (fun n => { n with layout := some layout }), nodeId)
    | .LCL_FLD =>
      .ok (st.modifyNode nodeId (fun n => { n with layout := some layout }), nodeId)
    | .CALL =>
      -- replace the call result with a temp, then retype as GT_LCL_FLD
      let r := replaceWithLclVar st userId edgeIdx
      let newNodeId := (r.1.node userId).operands.getD edgeIdx 0
      .ok (r.1.modifyNode newNodeId
            (fun n => { n with oper := .LCL_FLD, layout := some layout }), newNodeId)
    | .LCL_VAR =>
      .ok (st.modifyNode nodeId
            (fun n => { n with oper := .LCL_FLD, layout := some layout }), nodeId)
    | _ => .error .unreached
  else .ok (st, nodeId)

/-- Llvm::representAsLclVar. -/
def representAsLclVar (st : LowState) (userId : NodeId) (edgeIdx : Nat) :
    LowState × Nat :=
  let nodeId := (st.node userId).operands.getD edgeIdx 0
  if (st.node nodeId).oper == .LCL_VAR then (st, (st.node nodeId).lclNum)
  else replaceWithLclVar st userId edgeIdx

/-- OperIsLocalStore. -/
def GOper.operIsLocalStore : GOper → Bool
  | .STORE_LCL_VAR | .STORE_LCL_FLD => true
  | _ => false

/-- OperIsInitVal. -/
def GOper.operIsInitVal : GOper → Bool
  | .INIT_VAL => true
  | _ => false

/-- Llvm::lowerFieldOfDependentlyPromotedStruct: redirect accesses to fields
of dependently promoted structs to the parent local at the combined
offset. -/
def lowerFieldOfDependentlyPromotedStruct (st : LowState) (nid : NodeId) :
    LowState :=
  let node := st.node nid
  if node.oper.operIsLocal || node.oper == .LCL_ADDR then
    let offset := node.lclOffs
    let varDsc := st.lvaTable.getD node.lclNum default
    if varDsc.isFieldOfDependentlyPromoted then
      st.modifyNode nid fun n =>
        let n :=
          match n.oper with
          | .LCL_VAR => { n with oper := .LCL_FLD }
          | .STORE_LCL_VAR =>
            { n with oper := .STORE_LCL_FLD,
                     varUseasg := n.varUseasg || st.oracles.isPartialLclFld n varDsc }
          | _ => n
        { n with lclNum := varDsc.lvParentLcl,
                 lclOffs := varDsc.lvFldOffset + offset }
    else st
  else st

/-- Llvm::lowerStoreLcl: retarget stores that must be performed field-wise
or by address, and normalize struct-typed sources to the destination's
layout. -/
def lowerStoreLcl (st : LowState) (nid : NodeId) : Except LowerFatal LowState := do
  let node := st.node nid
  let lclNum := node.lclNum
  let varDsc := st.lvaTable.getD lclNum default
  let dataId := node.operands.getD 0 0
  let data := st.node dataId
  let r ←
    if varDsc.canBeReplacedWithItsField then
      pure (st, some varDsc.lvFieldLclStart)
    else if node.vtype == .STRUCT then
      if data.vtype == .STRUCT then do
        let n ← normalizeStructUse st nid 0 (varDsc.layout.getD default)
        pure (n.1, none)
      else if data.oper.operIsInitVal then
        -- we need the local's address to create a memset
        pure (st, some lclNum)
      else pure (st, none)
    else pure (st, none)
  match r with
  | (st, some convertLclNum) =>
    let st := st.modifyNode nid fun n =>
      { n with oper := .STORE_LCL_FLD, lclNum := convertLclNum, lclOffs := 0,
               layout := varDsc.layout }
    pure (st.modifyNode nid fun n =>
      { n with varUseasg := n.varUseasg ||
          st.oracles.isPartialLclFld n (st.lvaTable.getD convertLclNum default) })
  | (st, none) => pure st

/-- Llvm::lowerLocal. -/
def lowerLocal (st : LowState) (nid : NodeId) : Except LowerFatal LowState := do
  let st := lowerFieldOfDependentlyPromotedStruct st nid
  let st ←
    if (st.node nid).oper == .STORE_LCL_VAR then lowerStoreLcl st nid else pure st
  let node := st.node nid
  if node.oper.operIsLocalStore && node.vtype == .STRUCT &&
      genActualType (st.node (node.operands.getD 0 0)).vtype == .INT then
    pure (st.modifyNode (node.operands.getD 0 0) fun d => { d with contained := true })
  else pure st

/-! ## Call lowering -/

/-- Llvm::insertNullCheckForCall: if the receiver may be null, materialize
it to a local and insert an explicit null check before the call; always
clear the call's null-check flag. -/
def insertNullCheckForCall (st : LowState) (callId : NodeId) : LowState :=
  -- assert(callNode->gtArgs.HasThisPointer())
  let st :=
    match st.findArgIdx callId .thisPointer with
    | none => st
    | some i =>
      let thisNodeId := (st.node callId).operands.getD i 0
      if st.oracles.addrCouldBeNull (st.node thisNodeId) then
        let r := representAsLclVar st callId i
        let st := r.1
        let thisArgLclNum := r.2
        let p := st.pushNode
          { oper := .LCL_VAR,
            vtype := (st.lvaTable.getD thisArgLclNum default).lvType,
            lclNum := thisArgLclNum }
        let st := p.1
        let q := st.pushNode { oper := .NULLCHECK, vtype := .INT, operands := [p.2] }
        let st := q.1
        let st := (st.insertBefore callId p.2).insertBefore callId q.2
        lowerIndir st q.2
      else st
  st.modifyNode callId fun n =>
    { n with call := n.call.map (fun ci => { ci with needsNullCheck := false }) }

/-- Llvm::lowerVirtualStubCall without its final recursive lowerCall: the
receiver is materialized to a local, the stub-cell argument removed and fed
to a freshly inserted resolution helper call, a dynamically resolved cell
address discarded, and the call retargeted as an indirect call through the
resolver's value. Returns the resolver call for the caller to lower. -/
def lowerVirtualStubCallCore (st : LowState) (callId : NodeId) :
    LowState × NodeId :=
  let thisIdx := (st.findArgIdx callId .thisPointer).getD 0
  let r := representAsLclVar st callId thisIdx
  let st := r.1
  let thisArgLclNum := r.2
  let p := st.pushNode { oper := .LCL_VAR, vtype := .REF, lclNum := thisArgLclNum }
  let st := p.1.insertBefore callId p.2
  let cellIdx := (st.findArgIdx callId .virtualStubCell).getD 0
  let cellNodeId := (st.node callId).operands.getD cellIdx 0
  let st := st.modifyNode callId fun n =>
    { n with operands := n.operands.eraseIdx cellIdx,
             call := n.call.map (fun ci => { ci with argMeta := ci.argMeta.eraseIdx cellIdx }) }
  let stubCall : GenTree :=
    { oper := .CALL, vtype := .I_IMPL, operands := [p.2, cellNodeId],
      call := some { argMeta := [{}, {}],
                     helper := some .LLVM_RESOLVE_INTERFACE_CALL_TARGET,
                     callKind := .helperCall } }
  let q := st.pushNode stubCall
  let st := q.1.insertBefore callId q.2
  -- discard the now-not-needed dynamically resolved cell address
  let st :=
    if (st.callInfo callId).callKind == .indirect then
      match (st.callInfo callId).callAddr with
      | some addrId =>
        if (st.node addrId).oper == .LCL_VAR then
          { st with range := st.range.erase addrId }
        else st.modifyNode addrId fun a => { a with unusedValue := true }
      | none => st
    else st
  -- retarget the call; it is no longer VSD
  let st := st.modifyNode callId fun n =>
    { n with call := n.call.map (fun ci =>
        { ci with callKind := .indirect, callAddr := some q.2, virtualStub := false }) }
  (st, q.2)

/-- Llvm::lowerDelegateInvoke: load the delegate's instance as the new
receiver (the indirection performs the null check) and its first-target
field as the indirect call target, both materialized immediately before the
call. -/
def lowerDelegateInvoke (st : LowState) (callId : NodeId) : LowState :=
  let thisIdx := (st.findArgIdx callId .thisPointer).getD 0
  let r := representAsLclVar st callId thisIdx
  let st := r.1
  let delegateThisLclNum := r.2
  let delegateThisId := (st.node callId).operands.getD thisIdx 0
  let o1 := st.pushNode
    { oper := .CNS_INT, vtype := .I_IMPL, conVal := (st.oracles.offsetOfDelegateInstance : Int) }
  let st := o1.1
  let a1 := st.pushNode { oper := .ADD, vtype := .BYREF, operands := [delegateThisId, o1.2] }
  let st := a1.1
  let i1 := st.pushNode { oper := .IND, vtype := .REF, operands := [a1.2] }
  let st := i1.1
  let st := ((st.insertBefore callId o1.2).insertBefore callId a1.2).insertBefore callId i1.2
  let st := st.modifyNode callId fun n => { n with operands := n.operands.set thisIdx i1.2 }
  -- this indirection null-checks the original receiver
  let st := lowerIndir st i1.2
  let d2 := st.pushNode { oper := .LCL_VAR, vtype := .REF, lclNum := delegateThisLclNum }
  let st := d2.1
  let o2 := st.pushNode
    { oper := .CNS_INT, vtype := .I_IMPL, conVal := (st.oracles.offsetOfDelegateFirstTarget : Int) }
  let st := o2.1
  let a2 := st.pushNode { oper := .ADD, vtype := .BYREF, operands := [d2.2, o2.2] }
  let st := a2.1
  let c2 := st.pushNode
    { oper := .IND, vtype := .I_IMPL, operands := [a2.2], nonFaulting := true,
      orderSideEff := true }
  let st := c2.1
  let st := (((st.insertBefore callId d2.2).insertBefore callId o2.2).insertBefore
    callId a2.2).insertBefore callId c2.2
  st.modifyNode callId fun n =>
    { n with call := n.call.map (fun ci => { ci with controlExpr := some c2.2 }) }

/-- Llvm::lowerCallReturn: switch gtCorInfoType from the signature return
type to the ABI return type. -/
def lowerCallReturn (st : LowState) (callId : NodeId) : LowState :=
  let node := st.node callId
  let ci := node.call.getD {}
  let sigRetType :=
    match ci.helper with
    | some h => st.oracles.helperSigRetType h
    | none =>
      if ci.corInfoType == .UNDEF then toCorInfoType node.vtype else ci.corInfoType
  st.modifyNode callId fun n =>
    { n with call := n.call.map (fun c =>
        { c with corInfoType := st.oracles.getLlvmReturnType sigRetType ci.retClsLayout }) }

/-- One iteration of the argument loop of lowerCallToShadowStack: compute
the argument's signature type and class, normalize struct-typed arguments
to the exact parameter layout, and record the AbiInfo classification. -/
def lowerOneCallArg (st : LowState) (callId : NodeId) (i : Nat) :
    Except LowerFatal LowState := do
  let node := st.node callId
  let ci := node.call.getD {}
  let meta := ci.argMeta.getD i {}
  let argNodeId := node.operands.getD i 0
  let argSigType :=
    match ci.helper with
    | some h => st.oracles.helperSigArgType h i
    | none =>
      if meta.wellKnown == .thisPointer then
        (if (st.node argNodeId).vtype == .REF then CorInfoType.CLASS else CorInfoType.BYREF)
      else if meta.wellKnown == .instParam || meta.wellKnown == .retBuffer then
        CorInfoType.PTR
      else if meta.sigCorType != .UNDEF then meta.sigCorType
      else toCorInfoType meta.sigType
  let argSigClass :=
    match ci.helper with
    | some h => st.oracles.helperSigArgClass h i
    | none => meta.sigClass
  let st ←
    if (st.node argNodeId).vtype == .STRUCT then do
      let r ← normalizeStructUse st callId i (argSigClass.getD default)
      pure r.1
    else pure st
  let argType := st.oracles.getLlvmArgTypeForArg argSigType argSigClass
  let newMeta : CallArgMeta :=
    { meta with abiIsPointer := argType == .PTR,
                abiArgType := jitTypeToVarType argType }
  pure (st.modifyNode callId fun n =>
    { n with call := n.call.map (fun c => { c with argMeta := c.argMeta.set i newMeta }) })

/-- Llvm::lowerCallToShadowStack: AbiInfo classification of every
argument. -/
def lowerCallToShadowStack (st : LowState) (callId : NodeId) :
    Except LowerFatal LowState :=
  let n := ((st.node callId).call.getD {}).argMeta.length
  (List.range n).foldlM (fun st i => lowerOneCallArg st callId i) st

/-- The direct-unmanaged-call part of Llvm::lowerUnmanagedCall: resolve the
target through an external accessor keyed by the concrete ABI-type
signature. -/
def lowerUnmanagedCallAccessor (st : LowState) (callId : NodeId) : LowState :=
  let ci := st.callInfo callId
  if ci.callKind != .indirect then
    -- assert(CT_USER_FUNC && !IsVarargs)
    let sig :=
      st.oracles.getAbiTypeForType (jitTypeToVarType ci.corInfoType) ::
        ci.argMeta.map (fun m =>
          st.oracles.getAbiTypeForType (jitTypeToVarType (st.oracles.getLlvmArgTypeForCallArg m)))
    st.modifyNode callId fun n =>
      { n with call := n.call.map (fun c => { c with entryPointSig := some sig }) }
  else st

/-- Insert the CORINFO_HELP_JIT_PINVOKE_BEGIN transition before the call.
Returns the frame-address node and the helper call (both still to be
lowered, as in the source). -/
def insertPInvokeBegin (st : LowState) (callId : NodeId) :
    LowState × NodeId × NodeId :=
  let f := st.pushNode
    { oper := .LCL_ADDR, vtype := .I_IMPL, lclNum := st.lvaInlinedPInvokeFrameVar }
  let st := f.1
  let h := st.pushNode
    { oper := .CALL, vtype := .VOID, operands := [f.2],
      call := some { argMeta := [{}], helper := some .JIT_PINVOKE_BEGIN,
                     callKind := .helperCall } }
  let st := h.1
  let st := (st.insertBefore callId f.2).insertBefore callId h.2
  (st, f.2, h.2)

/-- Insert the CORINFO_HELP_JIT_PINVOKE_END transition after the call (left
for the normal lowering loop to pick up). -/
def insertPInvokeEnd (st : LowState) (callId : NodeId) : LowState :=
  let f := st.pushNode
    { oper := .LCL_ADDR, vtype := .I_IMPL, lclNum := st.lvaInlinedPInvokeFrameVar }
  let st := f.1
  let h := st.pushNode
    { oper := .CALL, vtype := .VOID, operands := [f.2],
      call := some { argMeta := [{}], helper := some .JIT_PINVOKE_END,
                     callKind := .helperCall } }
  let st := h.1
  (st.insertAfter callId f.2).insertAfter f.2 h.2

/-- LIR::Range::Remove of the range's last node with markOperandsUnused:
the removed node's operands become unused values. -/
def removeLastMarkUnused (st : LowState) (lastId : NodeId) : LowState :=
  let ops := (st.node lastId).operands
  let st := ops.foldl
    (fun st opId => st.modifyNode opId fun o => { o with unusedValue := true }) st
  { st with range := st.range.dropLast }

/-- The dead-code deletion loop of lowerCall: remove trailing nodes until
the call is the last node of the range. -/
def truncateLoop : Nat → LowState → NodeId → LowState
  | 0, st, _ => st
  | fuel + 1, st, callId =>
    match st.range.getLast? with
    | none => st
    | some lastId =>
      if lastId = callId then st
      else truncateLoop fuel (removeLastMarkUnused st lastId) callId

/-- All trailing dead code after the call is removed (the while loop in the
source; the fuel is the range length, enough to empty it). -/
def truncateRangeAfterNode (st : LowState) (callId : NodeId) : LowState :=
  truncateLoop st.range.length st callId

/-- Llvm::lowerCall. The fuel bounds the recursion depth through
lowerVirtualStubCall and lowerUnmanagedCall, which lower the helper calls
they synthesize; those helpers never recurse further, so any fuel of at
least two suffices in the source. -/
def lowerCallF : Nat → LowState → NodeId → Except LowerFatal LowState
  | 0, _, _ => .error .unreached
  | fuel + 1, st, callId => do
    -- assert(!callNode->IsTailCall())
    let ci0 := st.callInfo callId
    let st ←
      if ci0.helper == some .RETHROW then lowerRethrow st callId
      else if ci0.helper == some .OVERFLOW && ci0.argMeta.length != 0 then
        -- gtFoldExprConst can attach a superfluous argument; remove it
        let argId := (st.node callId).operands.getD 0 0
        let st := { st with range := st.range.erase argId }
        pure (st.modifyNode callId fun n =>
          { n with operands := n.operands.drop 1,
                   call := n.call.map (fun c => { c with argMeta := c.argMeta.drop 1 }) })
      else pure st
    -- callNode->gtArgs.MoveLateToEarly(): arguments are modelled as a single
    -- early list, so this is the identity here
    let st :=
      if (st.callInfo callId).needsNullCheck || (st.callInfo callId).virtualStub then
        insertNullCheckForCall st callId
      else st
    let st ←
      if (st.callInfo callId).virtualStub then do
        let r := lowerVirtualStubCallCore st callId
        -- lower the newly introduced stub call
        lowerCallF fuel r.1 r.2
      else if (st.callInfo callId).delegateInvoke then
        pure (lowerDelegateInvoke st callId)
      else pure st
    let st := lowerCallReturn st callId
    let st ← lowerCallToShadowStack st callId
    let st ←
      if (st.callInfo callId).unmanaged then do
        let st := lowerUnmanagedCallAccessor st callId
        if !(st.callInfo callId).suppressGCTransition then do
          let r := insertPInvokeBegin st callId
          let st ← lowerLocal r.1 r.2.1
          let st ← lowerCallF fuel st r.2.2
          pure (insertPInvokeEnd st callId)
        else pure st
      else pure st
    -- if this is a no-return or always-throw call, delete the dead code
    let ciEnd := st.callInfo callId
    if ciEnd.fgIsThrow || ciEnd.noReturn then
      let st := truncateRangeAfterNode st callId
      -- fgConvertBBToThrowBB (external): convert the block's kind to throw
      if st.blockKind != .throw then pure { st with blockKind := .throw }
      else pure st
    else pure st

/-- Llvm::lowerCall at the depth the source can reach. -/
def lowerCall (st : LowState) (callId : NodeId) : Except LowerFatal LowState :=
  lowerCallF 2 st callId

/-- A concrete oracle instantiation (used to evaluate the embedding on
closed inputs): LLVM struct types are keyed by layout size, return and
argument ABI types are the signature types, nothing is a partial store, and
the delegate offsets are 8 and 16. -/
def sampleOracles : Oracles :=
  { addrCouldBeNull := fun n => !(n.oper == .LCL_ADDR)
    getLlvmTypeForStruct := fun l => l.size
    getLlvmReturnType := fun t _ => t
    getLlvmArgTypeForArg := fun t _ => t
    getLlvmArgTypeForCallArg := fun m => m.sigCorType
    helperSigRetType := fun _ => .VOID
    helperSigArgType := fun _ _ => .INT
    helperSigArgClass := fun _ _ => none
    getAbiTypeForType := fun t => t.tag
    isPartialLclFld := fun _ _ => false
    offsetOfDelegateInstance := 8
    offsetOfDelegateFirstTarget := 16 }

/-! # Witness data: closed states used to evaluate the embedding -/

/-- A state with one struct-typed GT_BLK use (node 1) consumed by a store
(node 0), whose layout has size 12. -/
def structUseState : LowState :=
  { arena := #[{ oper := .STOREIND, vtype := .VOID, operands := [1] },
               { oper := .BLK, vtype := .STRUCT,
                 layout := some { layoutId := 5, hasGCPtr := false, size := 12 } }],
    range := [1, 0], oracles := sampleOracles }

/-- A reverse-entry function with one block and no EH regions. -/
def ehFreshState : EhState :=
  { isReversePInvoke := true,
    blocks := [{ bid := 0, codeOffs := 10, codeOffsEnd := 20 }],
    ehTable := [], nextBlockId := 1 }

/-- A reverse-entry function with two blocks whose first block begins the
try range of one pre-existing catch region. -/
def ehNestedState : EhState :=
  { isReversePInvoke := true,
    blocks := [{ bid := 0, tryIndex := some 0 }, { bid := 1, hndIndex := some 0 }],
    ehTable := [{ handlerType := .hndCatch, tryBeg := 0, tryLast := 0,
                  hndBeg := 1, hndLast := 1 }],
    nextBlockId := 2 }

/-- A state whose single node is a GT_CATCH_ARG inside a catch handler. -/
def catchArgState : LowState :=
  { arena := #[{ oper := .CATCH_ARG, vtype := .REF, orderSideEff := true }],
    range := [0], blockHndIndex := some 0, ehHandlers := [.hndCatch],
    shadowStackLclNum := 3, oracles := sampleOracles }

/-- A state whose single node is a rethrow helper call inside a catch
handler. -/
def rethrowState : LowState :=
  { arena := #[{ oper := .CALL, vtype := .VOID,
                 call := some { helper := some .RETHROW } }],
    range := [0], blockHndIndex := some 0, ehHandlers := [.hndCatch],
    shadowStackLclNum := 3, oracles := sampleOracles }

/-- A state whose node 1 is a call to an always-throwing helper (fgIsThrow
per the external oracle) consuming the constant node 0, followed by a dead
constant node 2. -/
def noReturnCallState : LowState :=
  { arena := #[{ oper := .CNS_INT, vtype := .INT },
               { oper := .CALL, vtype := .VOID, operands := [0],
                 call := some { helper := some (.OTHER 7), callKind := .helperCall,
                                fgIsThrow := true } },
               { oper := .CNS_INT, vtype := .INT }],
    range := [0, 1, 2], oracles := sampleOracles }

/-! ## Call-node preservation: the relation threaded through the
call-lowering dispatcher steps -/

/-- The dispatch-relevant classification flags of the call node at callId
are untouched by a lowering step, the arena only grows past callId, and the
node is never removed from the current range. -/
def KeepsCall (callId : NodeId) (st st' : LowState) : Prop :=
  callId < st.arena.size →
    callId < st'.arena.size ∧
    (st'.callInfo callId).fgIsThrow = (st.callInfo callId).fgIsThrow ∧
    (st'.callInfo callId).noReturn = (st.callInfo callId).noReturn ∧
    (st'.callInfo callId).virtualStub = (st.callInfo callId).virtualStub ∧
    (st'.callInfo callId).delegateInvoke = (st.callInfo callId).delegateInvoke ∧
    (st'.callInfo callId).unmanaged = (st.callInfo callId).unmanaged ∧
    (st'.callInfo callId).callAddr = (st.callInfo callId).callAddr ∧
    (st'.callInfo callId).helper = (st.callInfo callId).helper ∧
    (callId ∈ st.range → callId ∈ st'.range)

/-- The weaker call-node tracking used past the virtual-stub retargeting
(which rewrites callKind, callAddr and virtualStub of the call): only the
flags the final no-return check reads, the arena bound and range
membership. -/
def KeepsCallW (callId : NodeId) (st st' : LowState) : Prop :=
  callId < st.arena.size →
    callId < st'.arena.size ∧
    (st'.callInfo callId).fgIsThrow = (st.callInfo callId).fgIsThrow ∧
    (st'.callInfo callId).noReturn = (st.callInfo callId).noReturn ∧
    (callId ∈ st.range → callId ∈ st'.range)

/-! # Helper lemmas about the arena primitives -/

theorem arrGetD_eq_getElem {α : Type} (a : Array α) (i : Nat) (d : α)
    (h : i < a.size) : a.getD i d = a[i] := by
  unfold Array.getD
  simp [h]

theorem arrGetD_modify_self {α : Type} (a : Array α) (i : Nat) (f : α → α) (d : α)
    (h : i < a.size) : (a.modify i f).getD i d = f (a.getD i d) := by
  rw [arrGetD_eq_getElem _ _ _ (by simpa using h), arrGetD_eq_getElem _ _ _ h]
  exact Array.getElem_modify_self f _

theorem arrGetD_modify_of_ne {α : Type} (a : Array α) (i j : Nat) (f : α → α) (d : α)
    (hne : i ≠ j) : (a.modify i f).getD j d = a.getD j d := by
  by_cases h : j < a.size
  · rw [arrGetD_eq_getElem _ _ _ (by simpa using h), arrGetD_eq_getElem _ _ _ h]
    exact Array.getElem_modify_of_ne hne f _
  · unfold Array.getD
    simp [Array.size_modify, h]

theorem arrGetD_modify_oob {α : Type} (a : Array α) (i j : Nat) (f : α → α) (d : α)
    (h : ¬ j < a.size) : (a.modify i f).getD j d = d := by
  unfold Array.getD
  simp [Array.size_modify, h]

theorem arrGetD_oob {α : Type} (a : Array α) (j : Nat) (d : α)
    (h : ¬ j < a.size) : a.getD j d = d := by
  unfold Array.getD
  simp [h]

theorem arrGetD_push_lt {α : Type} (a : Array α) (x : α) (i : Nat) (d : α)
    (h : i < a.size) : (a.push x).getD i d = a.getD i d := by
  rw [arrGetD_eq_getElem _ _ _ (by simp; omega), arrGetD_eq_getElem _ _ _ h]
  exact Array.getElem_push_lt a x i h

theorem arrGetD_push_eq {α : Type} (a : Array α) (x : α) (d : α) :
    (a.push x).getD a.size d = x := by
  rw [arrGetD_eq_getElem _ _ _ (by simp)]
  exact Array.getElem_push_eq a x

theorem arrGetD_push_modify_self {α : Type} (a : Array α) (x : α) (i : Nat)
    (f : α → α) (d : α) (h : i < a.size) :
    ((a.push x).modify i f).getD i d = f (a.getD i d) := by
  rw [arrGetD_modify_self _ _ _ _ (by simp [Array.size_push]; omega),
    arrGetD_push_lt _ _ _ _ h]

theorem arrGetD_push_modify_size {α : Type} (a : Array α) (x : α) (i : Nat)
    (f : α → α) (d : α) (h : i < a.size) :
    ((a.push x).modify i f).getD a.size d = x := by
  rw [arrGetD_modify_of_ne _ _ _ _ _ (by omega), arrGetD_push_eq]

/-! ## Helper lemmas about the block-list primitives -/

theorem updateBlock_append (xs ys : List BasicBlock) (bid : Nat)
    (f : BasicBlock → BasicBlock) :
    updateBlock (xs ++ ys) bid f = updateBlock xs bid f ++ updateBlock ys bid f := by
  simp [updateBlock]

theorem updateBlock_length (xs : List BasicBlock) (bid : Nat)
    (f : BasicBlock → BasicBlock) : (updateBlock xs bid f).length = xs.length := by
  simp [updateBlock]

theorem updateBlock_id (xs : List BasicBlock) (bid : Nat) (f : BasicBlock → BasicBlock)
    (h : ∀ b ∈ xs, b.bid ≠ bid) : updateBlock xs bid f = xs := by
  induction xs with
  | nil => rfl
  | cons x xs ih =>
    simp only [updateBlock, List.map_cons]
    rw [if_neg (h x (List.mem_cons_self x xs))]
    have := ih fun b hb => h b (List.mem_cons_of_mem x hb)
    simpa [updateBlock] using this

theorem updateBlock_bids (xs : List BasicBlock) (bid : Nat)
    (f : BasicBlock → BasicBlock) (hf : ∀ b, (f b).bid = b.bid) :
    (updateBlock xs bid f).map BasicBlock.bid = xs.map BasicBlock.bid := by
  induction xs with
  | nil => rfl
  | cons x xs ih =>
    simp only [updateBlock, List.map_cons] at *
    rw [ih]
    congr 1
    split
    · exact hf x
    · rfl

theorem mapThroughBlock_length (f : BasicBlock → BasicBlock) (lastId : Nat)
    (xs : List BasicBlock) : (mapThroughBlock f lastId xs).length = xs.length := by
  induction xs with
  | nil => rfl
  | cons x xs ih =>
    simp only [mapThroughBlock]
    split <;> simp [ih]

theorem mapThroughBlock_append (f : BasicBlock → BasicBlock) (lastId : Nat)
    (xs ys : List BasicBlock) (h : lastId ∈ xs.map BasicBlock.bid) :
    mapThroughBlock f lastId (xs ++ ys) = mapThroughBlock f lastId xs ++ ys := by
  induction xs with
  | nil => simp at h
  | cons x xs ih =>
    by_cases hx : x.bid = lastId
    · simp [mapThroughBlock, hx]
    · have hmem : lastId ∈ xs.map BasicBlock.bid := by
        simp only [List.map_cons, List.mem_cons] at h
        rcases h with h | h
        · exact absurd h.symm hx
        · exact h
      simp [mapThroughBlock, hx, ih hmem]

theorem mapThroughBlock_bids (f : BasicBlock → BasicBlock) (lastId : Nat)
    (xs : List BasicBlock) (hf : ∀ b, (f b).bid = b.bid) :
    (mapThroughBlock f lastId xs).map BasicBlock.bid = xs.map BasicBlock.bid := by
  induction xs with
  | nil => rfl
  | cons x xs ih =>
    simp only [mapThroughBlock]
    split <;> simp [hf, ih]

/-- The flag/try-index/statement maps the synthesizer runs after appending
the filter and handler blocks touch the appended pair only through the maps
keyed at their fresh ids: the result is the mapped old prefix followed by
the finalized pair. -/
theorem updates_pair_split
    (old : List BasicBlock) (nId b0bid lastBid : Nat) (F0 H0 : BasicBlock)
    (f1 fF fH g fS : BasicBlock → BasicBlock)
    (hF0 : F0.bid = nId) (hH0 : H0.bid = nId + 1)
    (hf1 : ∀ b, (f1 b).bid = b.bid) (hfF : ∀ b, (fF b).bid = b.bid)
    (hfH : ∀ b, (fH b).bid = b.bid) (hg : ∀ b, (g b).bid = b.bid)
    (hold : ∀ b ∈ old, b.bid < nId) (hb0 : b0bid < nId)
    (hlast : lastBid ∈ old.map BasicBlock.bid) :
    updateBlock (mapThroughBlock g lastBid (updateBlock (updateBlock (updateBlock
        (old ++ [F0, H0]) b0bid f1) nId fF) (nId + 1) fH)) nId fS =
      updateBlock (mapThroughBlock g lastBid (updateBlock old b0bid f1)) nId fS
        ++ [fS (fF F0), fH H0] := by
  have hpre1bids : (updateBlock old b0bid f1).map BasicBlock.bid = old.map BasicBlock.bid :=
    updateBlock_bids _ _ _ hf1
  have memlt : ∀ (xs : List BasicBlock), xs.map BasicBlock.bid = old.map BasicBlock.bid →
      ∀ b ∈ xs, b.bid < nId := by
    intro xs hxs b hbm
    have hmem : b.bid ∈ xs.map BasicBlock.bid := List.mem_map_of_mem _ hbm
    rw [hxs] at hmem
    obtain ⟨c, hc, hcb⟩ := List.mem_map.mp hmem
    exact hcb ▸ hold c hc
  have hpre1lt : ∀ b ∈ updateBlock old b0bid f1, b.bid < nId := memlt _ hpre1bids
  have e1 : updateBlock (old ++ [F0, H0]) b0bid f1 =
      updateBlock old b0bid f1 ++ [F0, H0] := by
    rw [updateBlock_append]
    congr 1
    apply updateBlock_id
    intro b hbm
    simp only [List.mem_cons, List.not_mem_nil, or_false] at hbm
    rcases hbm with rfl | rfl
    · rw [hF0]; omega
    · rw [hH0]; omega
  have e2 : updateBlock (updateBlock old b0bid f1 ++ [F0, H0]) nId fF =
      updateBlock old b0bid f1 ++ [fF F0, H0] := by
    rw [updateBlock_append,
      updateBlock_id _ _ _ (fun b hbm => Nat.ne_of_lt (hpre1lt b hbm))]
    congr 1
    simp [updateBlock, hF0, hH0]
  have e3 : updateBlock (updateBlock old b0bid f1 ++ [fF F0, H0]) (nId + 1) fH =
      updateBlock old b0bid f1 ++ [fF F0, fH H0] := by
    rw [updateBlock_append,
      updateBlock_id _ _ _ (fun b hbm => by have := hpre1lt b hbm; omega)]
    congr 1
    simp [updateBlock, hfF, hF0, hH0]
  have e4 : mapThroughBlock g lastBid (updateBlock old b0bid f1 ++ [fF F0, fH H0]) =
      mapThroughBlock g lastBid (updateBlock old b0bid f1) ++ [fF F0, fH H0] := by
    apply mapThroughBlock_append
    rw [hpre1bids]
    exact hlast
  have hpre2lt : ∀ b ∈ mapThroughBlock g lastBid (updateBlock old b0bid f1), b.bid < nId := by
    apply memlt
    rw [mapThroughBlock_bids _ _ _ hg, hpre1bids]
  rw [e1, e2, e3, e4, updateBlock_append]
  congr 1
  simp [updateBlock, hfF, hfH, hF0, hH0]

/-! ## Preservation lemmas for the call-lowering dispatcher steps -/

theorem KeepsCall_refl (callId : NodeId) (st : LowState) : KeepsCall callId st st :=
  fun h => ⟨h, rfl, rfl, rfl, rfl, rfl, rfl, rfl, id⟩

theorem KeepsCallW_of {callId : NodeId} {st st' : LowState}
    (K : KeepsCall callId st st') : KeepsCallW callId st st' := by
  intro hs
  obtain ⟨b, f, n, _, _, _, _, _, m⟩ := K hs
  exact ⟨b, f, n, m⟩

theorem KeepsCallW_trans {callId : NodeId} {s1 s2 s3 : LowState}
    (h1 : KeepsCallW callId s1 s2) (h2 : KeepsCallW callId s2 s3) :
    KeepsCallW callId s1 s3 := by
  intro hs
  obtain ⟨b1, f1, n1, m1⟩ := h1 hs
  obtain ⟨b2, f2, n2, m2⟩ := h2 b1
  exact ⟨b2, f2.trans f1, n2.trans n1, fun hm => m2 (m1 hm)⟩

theorem KeepsCall_trans {callId : NodeId} {s1 s2 s3 : LowState}
    (h1 : KeepsCall callId s1 s2) (h2 : KeepsCall callId s2 s3) :
    KeepsCall callId s1 s3 := by
  intro hs
  obtain ⟨b1, f1, n1, v1, d1, u1, a1, e1, m1⟩ := h1 hs
  obtain ⟨b2, f2, n2, v2, d2, u2, a2, e2, m2⟩ := h2 b1
  exact ⟨b2, f2.trans f1, n2.trans n1, v2.trans v1, d2.trans d1, u2.trans u1,
    a2.trans a1, e2.trans e1, fun hm => m2 (m1 hm)⟩

theorem keeps_of_fields {callId : NodeId} {st st' : LowState}
    (ha : st'.arena = st.arena) (hr : st'.range = st.range) :
    KeepsCall callId st st' := by
  intro hs
  have hc : st'.callInfo callId = st.callInfo callId := by
    simp only [LowState.callInfo, LowState.node, ha]
  exact ⟨by rw [ha]; exact hs, by rw [hc], by rw [hc], by rw [hc], by rw [hc],
    by rw [hc], by rw [hc], by rw [hc], fun hm => by rw [hr]; exact hm⟩

theorem keeps_pushNode (callId : NodeId) (st : LowState) (t : GenTree) :
    KeepsCall callId st (st.pushNode t).1 := by
  intro hs
  have hc : (st.pushNode t).1.callInfo callId = st.callInfo callId := by
    simp only [LowState.pushNode, LowState.callInfo, LowState.node]
    rw [arrGetD_push_lt _ _ _ _ hs]
  refine ⟨?_, by rw [hc], by rw [hc], by rw [hc], by rw [hc], by rw [hc],
    by rw [hc], by rw [hc], fun hm => hm⟩
  simp only [LowState.pushNode, Array.size_push]
  exact Nat.lt_succ_of_lt hs

theorem mem_insertBeforeNode {x : NodeId} (range : List NodeId) (anchor newId : NodeId)
    (h : x ∈ range) : x ∈ insertBeforeNode range anchor newId := by
  induction range with
  | nil => exact absurd h (List.not_mem_nil x)
  | cons a t ih =>
    unfold insertBeforeNode
    split
    · exact List.mem_cons_of_mem _ h
    · rcases List.mem_cons.mp h with rfl | h2
      · exact List.mem_cons_self _ _
      · exact List.mem_cons_of_mem _ (ih h2)

theorem mem_insertAfterNode {x : NodeId} (range : List NodeId) (anchor newId : NodeId)
    (h : x ∈ range) : x ∈ insertAfterNode range anchor newId := by
  induction range with
  | nil => exact absurd h (List.not_mem_nil x)
  | cons a t ih =>
    unfold insertAfterNode
    split
    · rcases List.mem_cons.mp h with rfl | h2
      · exact List.mem_cons_self _ _
      · exact List.mem_cons_of_mem _ (List.mem_cons_of_mem _ h2)
    · rcases List.mem_cons.mp h with rfl | h2
      · exact List.mem_cons_self _ _
      · exact List.mem_cons_of_mem _ (ih h2)

theorem keeps_insertBefore (callId : NodeId) (st : LowState) (anchor nid : NodeId) :
    KeepsCall callId st (st.insertBefore anchor nid) :=
  fun hs => ⟨hs, rfl, rfl, rfl, rfl, rfl, rfl, rfl,
    fun hm => mem_insertBeforeNode _ _ _ hm⟩

theorem keeps_insertAfter (callId : NodeId) (st : LowState) (anchor nid : NodeId) :
    KeepsCall callId st (st.insertAfter anchor nid) :=
  fun hs => ⟨hs, rfl, rfl, rfl, rfl, rfl, rfl, rfl,
    fun hm => mem_insertAfterNode _ _ _ hm⟩

theorem keeps_modifyNode_callEq (callId : NodeId) (st : LowState) (nid : NodeId)
    (f : GenTree → GenTree) (hf : ∀ n, (f n).call = n.call) :
    KeepsCall callId st (st.modifyNode nid f) := by
  intro hs
  have hb : callId < (st.modifyNode nid f).arena.size := by
    simp only [LowState.modifyNode, Array.size_modify]
    exact hs
  have hc : (st.modifyNode nid f).callInfo callId = st.callInfo callId := by
    simp only [LowState.modifyNode, LowState.callInfo, LowState.node]
    by_cases h : nid = callId
    · subst h
      rw [arrGetD_modify_self _ _ _ _ hs, hf]
    · rw [arrGetD_modify_of_ne _ _ _ _ _ h]
  exact ⟨hb, by rw [hc], by rw [hc], by rw [hc], by rw [hc], by rw [hc],
    by rw [hc], by rw [hc], fun hm => hm⟩

theorem keeps_modifyNode_mapCall (callId : NodeId) (st : LowState) (nid : NodeId)
    (f : GenTree → GenTree) (g : CallInfo → CallInfo)
    (hf : ∀ n, (f n).call = n.call.map g)
    (h1 : ∀ c, (g c).fgIsThrow = c.fgIsThrow)
    (h2 : ∀ c, (g c).noReturn = c.noReturn)
    (h3 : ∀ c, (g c).virtualStub = c.virtualStub)
    (h4 : ∀ c, (g c).delegateInvoke = c.delegateInvoke)
    (h5 : ∀ c, (g c).unmanaged = c.unmanaged)
    (h6 : ∀ c, (g c).callAddr = c.callAddr)
    (h7 : ∀ c, (g c).helper = c.helper) :
    KeepsCall callId st (st.modifyNode nid f) := by
  intro hs
  have hb : callId < (st.modifyNode nid f).arena.size := by
    simp only [LowState.modifyNode, Array.size_modify]
    exact hs
  have hnode : (st.modifyNode nid f).callInfo callId = g (st.callInfo callId) ∨
      (st.modifyNode nid f).callInfo callId = st.callInfo callId := by
    simp only [LowState.modifyNode, LowState.callInfo, LowState.node]
    by_cases h : nid = callId
    · subst h
      rw [arrGetD_modify_self _ _ _ _ hs, hf]
      cases (st.arena.getD nid default).call with
      | none => exact Or.inr rfl
      | some c => exact Or.inl rfl
    · rw [arrGetD_modify_of_ne _ _ _ _ _ h]
      exact Or.inr rfl
  rcases hnode with hg | he
  · exact ⟨hb, by rw [hg]; exact h1 _, by rw [hg]; exact h2 _, by rw [hg]; exact h3 _,
      by rw [hg]; exact h4 _, by rw [hg]; exact h5 _, by rw [hg]; exact h6 _,
      by rw [hg]; exact h7 _, fun hm => hm⟩
  · exact ⟨hb, by rw [he], by rw [he], by rw [he], by rw [he], by rw [he],
      by rw [he], by rw [he], fun hm => hm⟩

theorem except_bind_ok {α β : Type} {e : Except LowerFatal α}
    {k : α → Except LowerFatal β} {b : β} (h : e >>= k = .ok b) :
    ∃ a, e = .ok a ∧ k a = .ok b := by
  cases e with
  | error err => exact Except.noConfusion h
  | ok a => exact ⟨a, rfl, h⟩

theorem keeps_insertShadowStackAddr (callId : NodeId) (st : LowState)
    (bid off ssl : Nat) :
    KeepsCall callId st (insertShadowStackAddr st bid off ssl).1 := by
  unfold insertShadowStackAddr
  dsimp only
  split
  · exact KeepsCall_trans (keeps_pushNode _ _ _) (keeps_insertBefore _ _ _ _)
  · refine KeepsCall_trans ?_ (keeps_insertBefore _ _ _ _)
    refine KeepsCall_trans ?_ (keeps_pushNode _ _ _)
    refine KeepsCall_trans ?_ (keeps_insertBefore _ _ _ _)
    refine KeepsCall_trans ?_ (keeps_pushNode _ _ _)
    exact KeepsCall_trans (keeps_pushNode _ _ _) (keeps_insertBefore _ _ _ _)

theorem keeps_lowerIndir (callId : NodeId) (st : LowState) (nid : NodeId) :
    KeepsCall callId st (lowerIndir st nid) := by
  unfold lowerIndir
  split
  · exact keeps_of_fields rfl rfl
  · exact KeepsCall_refl _ _

theorem keeps_replaceWithLclVar (callId : NodeId) (st : LowState)
    (userId : NodeId) (edgeIdx : Nat) :
    KeepsCall callId st (replaceWithLclVar st userId edgeIdx).1 := by
  unfold replaceWithLclVar
  dsimp only
  refine KeepsCall_trans ?_ (keeps_modifyNode_callEq _ _ _ _ (fun n => rfl))
  refine KeepsCall_trans ?_ (keeps_insertBefore _ _ _ _)
  refine KeepsCall_trans ?_ (keeps_pushNode _ _ _)
  refine KeepsCall_trans ?_ (keeps_insertAfter _ _ _ _)
  refine KeepsCall_trans ?_ (keeps_pushNode _ _ _)
  exact keeps_of_fields rfl rfl

theorem keeps_representAsLclVar (callId : NodeId) (st : LowState)
    (userId : NodeId) (edgeIdx : Nat) :
    KeepsCall callId st (representAsLclVar st userId edgeIdx).1 := by
  unfold representAsLclVar
  dsimp only
  split
  · exact KeepsCall_refl _ _
  · exact keeps_replaceWithLclVar _ _ _ _

theorem keeps_lowerRethrow {callId : NodeId} {st st' : LowState} {target : NodeId}
    (h : lowerRethrow st target = .ok st') : KeepsCall callId st st' := by
  unfold lowerRethrow at h
  split at h
  · exact Except.noConfusion h
  · split at h
    · exact Except.noConfusion h
    · split at h
      · exact Except.noConfusion h
      · injection h with h2
        subst h2
        refine KeepsCall_trans ?_ (keeps_modifyNode_mapCall _ _ _ _ _ (fun n => rfl)
          (fun c => rfl) (fun c => rfl) (fun c => rfl) (fun c => rfl) (fun c => rfl)
          (fun c => rfl) (fun c => rfl))
        exact keeps_insertShadowStackAddr _ _ _ _ _

theorem keeps_insertNullCheckForCall (callId : NodeId) (st : LowState)
    (target : NodeId) :
    KeepsCall callId st (insertNullCheckForCall st target) := by
  unfold insertNullCheckForCall
  dsimp only
  refine KeepsCall_trans ?_ (keeps_modifyNode_mapCall _ _ _ _ _ (fun n => rfl)
    (fun c => rfl) (fun c => rfl) (fun c => rfl) (fun c => rfl) (fun c => rfl)
    (fun c => rfl) (fun c => rfl))
  split
  · exact KeepsCall_refl _ _
  · split
    · refine KeepsCall_trans ?_ (keeps_lowerIndir _ _ _)
      refine KeepsCall_trans ?_ (keeps_insertBefore _ _ _ _)
      refine KeepsCall_trans ?_ (keeps_insertBefore _ _ _ _)
      refine KeepsCall_trans ?_ (keeps_pushNode _ _ _)
      refine KeepsCall_trans ?_ (keeps_pushNode _ _ _)
      exact keeps_representAsLclVar _ _ _ _
    · exact KeepsCall_refl _ _

theorem keeps_lowerDelegateInvoke (callId : NodeId) (st : LowState)
    (target : NodeId) :
    KeepsCall callId st (lowerDelegateInvoke st target) := by
  unfold lowerDelegateInvoke
  dsimp only
  refine KeepsCall_trans ?_ (keeps_modifyNode_mapCall _ _ _ _ _ (fun n => rfl)
    (fun c => rfl) (fun c => rfl) (fun c => rfl) (fun c => rfl) (fun c => rfl)
    (fun c => rfl) (fun c => rfl))
  refine KeepsCall_trans ?_ (keeps_insertBefore _ _ _ _)
  refine KeepsCall_trans ?_ (keeps_insertBefore _ _ _ _)
  refine KeepsCall_trans ?_ (keeps_insertBefore _ _ _ _)
  refine KeepsCall_trans ?_ (keeps_insertBefore _ _ _ _)
  refine KeepsCall_trans ?_ (keeps_pushNode _ _ _)
  refine KeepsCall_trans ?_ (keeps_pushNode _ _ _)
  refine KeepsCall_trans ?_ (keeps_pushNode _ _ _)
  refine KeepsCall_trans ?_ (keeps_pushNode _ _ _)
  refine KeepsCall_trans ?_ (keeps_lowerIndir _ _ _)
  refine KeepsCall_trans ?_ (keeps_modifyNode_callEq _ _ _ _ (fun n => rfl))
  refine KeepsCall_trans ?_ (keeps_insertBefore _ _ _ _)
  refine KeepsCall_trans ?_ (keeps_insertBefore _ _ _ _)
  refine KeepsCall_trans ?_ (keeps_insertBefore _ _ _ _)
  refine KeepsCall_trans ?_ (keeps_pushNode _ _ _)
  refine KeepsCall_trans ?_ (keeps_pushNode _ _ _)
  refine KeepsCall_trans ?_ (keeps_pushNode _ _ _)
  exact keeps_representAsLclVar _ _ _ _

theorem keeps_lowerCallReturn (callId : NodeId) (st : LowState)
    (target : NodeId) :
    KeepsCall callId st (lowerCallReturn st target) := by
  unfold lowerCallReturn
  dsimp only
  exact keeps_modifyNode_mapCall _ _ _ _ _ (fun n => rfl) (fun c => rfl)
    (fun c => rfl) (fun c => rfl) (fun c => rfl) (fun c => rfl)
    (fun c => rfl) (fun c => rfl)

theorem keeps_normalizeStructUse {callId : NodeId} {st : LowState}
    {userId : NodeId} {edgeIdx : Nat} {layout : ClassLayout}
    {r : LowState × NodeId}
    (h : normalizeStructUse st userId edgeIdx layout = .ok r) :
    KeepsCall callId st r.1 := by
  unfold normalizeStructUse at h
  dsimp only at h
  split at h
  · split at h
    · injection h with h2
      subst h2
      exact keeps_modifyNode_callEq _ _ _ _ (fun n => rfl)
    · injection h with h2
      subst h2
      exact keeps_modifyNode_callEq _ _ _ _ (fun n => rfl)
    · injection h with h2
      subst h2
      dsimp only
      exact KeepsCall_trans (keeps_replaceWithLclVar _ _ _ _)
        (keeps_modifyNode_callEq _ _ _ _ (fun n => rfl))
    · injection h with h2
      subst h2
      exact keeps_modifyNode_callEq _ _ _ _ (fun n => rfl)
    · exact Except.noConfusion h
  · injection h with h2
    subst h2
    exact KeepsCall_refl _ _

theorem keeps_lowerOneCallArg {callId : NodeId} {st st' : LowState}
    {target : NodeId} {i : Nat}
    (h : lowerOneCallArg st target i = .ok st') : KeepsCall callId st st' := by
  unfold lowerOneCallArg at h
  dsimp only at h
  split at h
  · obtain ⟨r, hr, hp⟩ := except_bind_ok h
    have e2 := Except.ok.inj hp
    subst e2
    exact KeepsCall_trans (keeps_normalizeStructUse hr)
      (keeps_modifyNode_mapCall _ _ _ _ _ (fun n => rfl) (fun c => rfl) (fun c => rfl)
        (fun c => rfl) (fun c => rfl) (fun c => rfl) (fun c => rfl) (fun c => rfl))
  · have e2 := Except.ok.inj h
    subst e2
    exact keeps_modifyNode_mapCall _ _ _ _ _ (fun n => rfl) (fun c => rfl) (fun c => rfl)
      (fun c => rfl) (fun c => rfl) (fun c => rfl) (fun c => rfl) (fun c => rfl)

theorem keeps_foldlM (callId : NodeId) (F : LowState → Nat → Except LowerFatal LowState)
    (hF : ∀ s i s2, F s i = .ok s2 → KeepsCall callId s s2) :
    ∀ (l : List Nat) (s s' : LowState), l.foldlM F s = .ok s' → KeepsCall callId s s' := by
  intro l
  induction l with
  | nil =>
    intro s s' h
    have e : s = s' := Except.ok.inj h
    exact e ▸ KeepsCall_refl _ _
  | cons a t ih =>
    intro s s' h
    rw [List.foldlM_cons] at h
    obtain ⟨s1, h1, h2⟩ := except_bind_ok h
    exact KeepsCall_trans (hF _ _ _ h1) (ih _ _ h2)

theorem keeps_lowerCallToShadowStack {callId : NodeId} {st st' : LowState}
    {target : NodeId}
    (h : lowerCallToShadowStack st target = .ok st') : KeepsCall callId st st' := by
  unfold lowerCallToShadowStack at h
  exact keeps_foldlM callId _ (fun s i s2 hh => keeps_lowerOneCallArg hh) _ _ _ h

theorem callInfo_modify_callEq (st : LowState) (i j : NodeId) (f : GenTree → GenTree)
    (hf : ∀ n, (f n).call = n.call) : (st.modifyNode i f).callInfo j = st.callInfo j := by
  simp only [LowState.modifyNode, LowState.callInfo, LowState.node]
  by_cases h : i = j
  · subst h
    by_cases hlt : i < st.arena.size
    · rw [arrGetD_modify_self _ _ _ _ hlt, hf]
    · rw [arrGetD_modify_oob _ _ _ _ _ hlt, arrGetD_oob _ _ _ hlt]
  · rw [arrGetD_modify_of_ne _ _ _ _ _ h]

theorem callInfo_modify_of_ne (st : LowState) (i j : NodeId) (f : GenTree → GenTree)
    (h : i ≠ j) : (st.modifyNode i f).callInfo j = st.callInfo j := by
  simp only [LowState.modifyNode, LowState.callInfo, LowState.node]
  rw [arrGetD_modify_of_ne _ _ _ _ _ h]

theorem keeps_lowerUnmanagedCallAccessor (callId : NodeId) (st : LowState)
    (target : NodeId) :
    KeepsCall callId st (lowerUnmanagedCallAccessor st target) := by
  unfold lowerUnmanagedCallAccessor
  dsimp only
  split
  · exact keeps_modifyNode_mapCall _ _ _ _ _ (fun n => rfl) (fun c => rfl)
      (fun c => rfl) (fun c => rfl) (fun c => rfl) (fun c => rfl)
      (fun c => rfl) (fun c => rfl)
  · exact KeepsCall_refl _ _

theorem keeps_insertPInvokeBegin (callId : NodeId) (st : LowState)
    (target : NodeId) :
    KeepsCall callId st (insertPInvokeBegin st target).1 := by
  unfold insertPInvokeBegin
  dsimp only
  refine KeepsCall_trans ?_ (keeps_insertBefore _ _ _ _)
  refine KeepsCall_trans ?_ (keeps_insertBefore _ _ _ _)
  refine KeepsCall_trans ?_ (keeps_pushNode _ _ _)
  exact keeps_pushNode _ _ _

theorem keeps_insertPInvokeEnd (callId : NodeId) (st : LowState)
    (target : NodeId) :
    KeepsCall callId st (insertPInvokeEnd st target) := by
  unfold insertPInvokeEnd
  dsimp only
  refine KeepsCall_trans ?_ (keeps_insertAfter _ _ _ _)
  refine KeepsCall_trans ?_ (keeps_insertAfter _ _ _ _)
  refine KeepsCall_trans ?_ (keeps_pushNode _ _ _)
  exact keeps_pushNode _ _ _

theorem pinvokeBegin_callInfo (st : LowState) (target : NodeId) :
    (insertPInvokeBegin st target).1.callInfo (insertPInvokeBegin st target).2.2 =
      { argMeta := [{}], helper := some CorInfoHelpFunc.JIT_PINVOKE_BEGIN,
        callKind := CallKind.helperCall } ∧
    (insertPInvokeBegin st target).2.2 < (insertPInvokeBegin st target).1.arena.size := by
  unfold insertPInvokeBegin
  dsimp only
  constructor
  · simp only [LowState.callInfo, LowState.node, LowState.insertBefore, LowState.pushNode]
    rw [arrGetD_push_eq]
    rfl
  · simp only [LowState.insertBefore, LowState.pushNode, Array.size_push]
    exact Nat.lt_succ_self _

theorem keeps_lowerFieldOfDependentlyPromotedStruct (callId : NodeId)
    (st : LowState) (target : NodeId) :
    KeepsCall callId st (lowerFieldOfDependentlyPromotedStruct st target) := by
  unfold lowerFieldOfDependentlyPromotedStruct
  dsimp only
  split
  · split
    · refine keeps_modifyNode_callEq _ _ _ _ (fun n => ?_)
      dsimp only
      split <;> rfl
    · exact KeepsCall_refl _ _
  · exact KeepsCall_refl _ _

set_option maxHeartbeats 1600000 in
theorem keeps_lowerStoreLcl {callId : NodeId} {st st' : LowState} {target : NodeId}
    (h : lowerStoreLcl st target = .ok st') : KeepsCall callId st st' := by
  unfold lowerStoreLcl at h
  dsimp only at h
  split at h
  · obtain ⟨r, hp, h⟩ := except_bind_ok h
    have e := Except.ok.inj hp
    subst e
    dsimp only at h
    have e2 := Except.ok.inj h
    subst e2
    refine KeepsCall_trans (keeps_modifyNode_callEq _ _ _ _ ?_)
      (keeps_modifyNode_callEq _ _ _ _ ?_) <;> exact fun n => rfl
  · split at h
    · split at h
      · obtain ⟨r, hn, h⟩ := except_bind_ok h
        have e2 := Except.ok.inj h
        subst e2
        exact keeps_normalizeStructUse hn
      · split at h
        · obtain ⟨r, hp, h⟩ := except_bind_ok h
          have e := Except.ok.inj hp
          subst e
          dsimp only at h
          have e2 := Except.ok.inj h
          subst e2
          refine KeepsCall_trans (keeps_modifyNode_callEq _ _ _ _ ?_)
            (keeps_modifyNode_callEq _ _ _ _ ?_) <;> exact fun n => rfl
        · obtain ⟨r, hp, h⟩ := except_bind_ok h
          have e := Except.ok.inj hp
          subst e
          dsimp only at h
          have e2 := Except.ok.inj h
          subst e2
          exact KeepsCall_refl _ _
    · obtain ⟨r, hp, h⟩ := except_bind_ok h
      have e := Except.ok.inj hp
      subst e
      dsimp only at h
      have e2 := Except.ok.inj h
      subst e2
      exact KeepsCall_refl _ _

theorem keeps_lowerLocal {callId : NodeId} {st st' : LowState} {target : NodeId}
    (h : lowerLocal st target = .ok st') : KeepsCall callId st st' := by
  unfold lowerLocal at h
  dsimp only at h
  split at h
  · obtain ⟨s2, hsl, h⟩ := except_bind_ok h
    refine KeepsCall_trans (KeepsCall_trans
      (keeps_lowerFieldOfDependentlyPromotedStruct _ _ _) (keeps_lowerStoreLcl hsl)) ?_
    split at h
    · have e := Except.ok.inj h
      subst e
      exact keeps_modifyNode_callEq _ _ _ _ (fun n => rfl)
    · have e := Except.ok.inj h
      subst e
      exact KeepsCall_refl _ _
  · obtain ⟨s2, hp, h⟩ := except_bind_ok h
    have e := Except.ok.inj hp
    refine KeepsCall_trans (e ▸ keeps_lowerFieldOfDependentlyPromotedStruct callId st target) ?_
    split at h
    · have e2 := Except.ok.inj h
      subst e2
      exact keeps_modifyNode_callEq _ _ _ _ (fun n => rfl)
    · have e2 := Except.ok.inj h
      subst e2
      exact KeepsCall_refl _ _

theorem foldl_unused_range (l : List NodeId) (st : LowState) :
    (l.foldl (fun st opId =>
        st.modifyNode opId fun o => { o with unusedValue := true }) st).range =
      st.range := by
  induction l generalizing st with
  | nil => rfl
  | cons a t ih =>
    rw [List.foldl_cons]
    exact ih _

theorem removeLastMarkUnused_range (st : LowState) (lastId : NodeId) :
    (removeLastMarkUnused st lastId).range = st.range.dropLast := by
  unfold removeLastMarkUnused
  dsimp only
  rw [foldl_unused_range]

theorem mem_dropLast_of_ne {x : NodeId} (l : List NodeId) (lastId : NodeId)
    (h : l.getLast? = some lastId) (hm : x ∈ l) (hne : x ≠ lastId) :
    x ∈ l.dropLast := by
  induction l with
  | nil => exact absurd hm (List.not_mem_nil _)
  | cons a t ih =>
    cases t with
    | nil =>
      have ha : a = lastId := by simpa using h
      rcases List.mem_singleton.mp hm with rfl
      exact absurd ha hne
    | cons b t2 =>
      rw [List.getLast?_cons_cons] at h
      rcases List.mem_cons.mp hm with rfl | hm2
      · exact List.mem_cons_self _ _
      · exact List.mem_cons_of_mem _ (ih h hm2)

theorem truncateLoop_getLast (callId : NodeId) :
    ∀ (fuel : Nat) (st : LowState), callId ∈ st.range → st.range.length ≤ fuel →
      (truncateLoop fuel st callId).range.getLast? = some callId := by
  intro fuel
  induction fuel with
  | zero =>
    intro st hmem hlen
    have hnil : st.range = [] := List.eq_nil_of_length_eq_zero (Nat.le_zero.mp hlen)
    rw [hnil] at hmem
    exact absurd hmem (List.not_mem_nil _)
  | succ n ih =>
    intro st hmem hlen
    unfold truncateLoop
    split
    · rename_i heq
      have hsome := List.getLast?_isSome.mpr (List.ne_nil_of_mem hmem)
      rw [heq] at hsome
      simp at hsome
    · rename_i lastId heq
      split
      · rename_i hEqc
        rw [heq, hEqc]
      · rename_i hne
        apply ih
        · rw [removeLastMarkUnused_range]
          exact mem_dropLast_of_ne st.range lastId heq hmem (fun hx => hne (hx.symm))
        · rw [removeLastMarkUnused_range, List.length_dropLast]
          omega

theorem truncateRangeAfterNode_getLast (st : LowState) (callId : NodeId)
    (hmem : callId ∈ st.range) :
    (truncateRangeAfterNode st callId).range.getLast? = some callId := by
  unfold truncateRangeAfterNode
  exact truncateLoop_getLast callId st.range.length st hmem (Nat.le_refl _)

theorem keepsW_modifyNode_mapCall (callId : NodeId) (st : LowState) (nid : NodeId)
    (f : GenTree → GenTree) (g : CallInfo → CallInfo)
    (hf : ∀ n, (f n).call = n.call.map g)
    (h1 : ∀ c, (g c).fgIsThrow = c.fgIsThrow)
    (h2 : ∀ c, (g c).noReturn = c.noReturn) :
    KeepsCallW callId st (st.modifyNode nid f) := by
  intro hs
  have hb : callId < (st.modifyNode nid f).arena.size := by
    simp only [LowState.modifyNode, Array.size_modify]
    exact hs
  have hnode : (st.modifyNode nid f).callInfo callId = g (st.callInfo callId) ∨
      (st.modifyNode nid f).callInfo callId = st.callInfo callId := by
    simp only [LowState.modifyNode, LowState.callInfo, LowState.node]
    by_cases h : nid = callId
    · subst h
      rw [arrGetD_modify_self _ _ _ _ hs, hf]
      cases (st.arena.getD nid default).call with
      | none => exact Or.inr rfl
      | some c => exact Or.inl rfl
    · rw [arrGetD_modify_of_ne _ _ _ _ _ h]
      exact Or.inr rfl
  rcases hnode with hg | he
  · exact ⟨hb, by rw [hg]; exact h1 _, by rw [hg]; exact h2 _, fun hm => hm⟩
  · exact ⟨hb, by rw [he], by rw [he], fun hm => hm⟩

theorem keepsW_vs_discard_erase (callId addrId : NodeId) {x std : LowState}
    (K : KeepsCall callId x std)
    (heq : (std.callInfo callId).callAddr = some addrId)
    (hca : (x.callInfo callId).callAddr ≠ some callId) :
    KeepsCallW callId x { std with range := std.range.erase addrId } := by
  intro hs
  obtain ⟨b, f, n, v, d, u, a, e, m⟩ := K hs
  have hne : callId ≠ addrId := by
    intro hEq
    subst hEq
    exact hca (a.symm.trans heq)
  exact ⟨b, f, n, fun hm => (List.mem_erase_of_ne hne).mpr (m hm)⟩

theorem keepsW_propagate {callId : NodeId} {st s : LowState}
    (W : KeepsCallW callId st s)
    (hsize : callId < st.arena.size) (hmem : callId ∈ st.range)
    (hthrow : ((st.callInfo callId).fgIsThrow || (st.callInfo callId).noReturn) = true) :
    callId < s.arena.size ∧ callId ∈ s.range ∧
    ((s.callInfo callId).fgIsThrow || (s.callInfo callId).noReturn) = true := by
  obtain ⟨b, f, n, m⟩ := W hsize
  exact ⟨b, m hmem, by rw [f, n]; exact hthrow⟩

theorem keeps_propagateA {callId : NodeId} {st s : LowState}
    (K : KeepsCall callId st s)
    (hsize : callId < st.arena.size) (hmem : callId ∈ st.range)
    (hthrow : ((st.callInfo callId).fgIsThrow || (st.callInfo callId).noReturn) = true)
    (hca : (st.callInfo callId).callAddr ≠ some callId) :
    callId < s.arena.size ∧ callId ∈ s.range ∧
    ((s.callInfo callId).fgIsThrow || (s.callInfo callId).noReturn) = true ∧
    (s.callInfo callId).callAddr ≠ some callId := by
  obtain ⟨b, f, n, v, d, u, a, e, m⟩ := K hsize
  exact ⟨b, m hmem, by rw [f, n]; exact hthrow, by rw [a]; exact hca⟩

theorem keeps_propagate_false {nid : NodeId} {st0 x : LowState}
    (K : KeepsCall nid st0 x) (hns : nid < st0.arena.size)
    (hfg : (st0.callInfo nid).fgIsThrow = false)
    (hnr : (st0.callInfo nid).noReturn = false)
    (hv : (st0.callInfo nid).virtualStub = false)
    (hu : (st0.callInfo nid).unmanaged = false) :
    nid < x.arena.size ∧
    (x.callInfo nid).fgIsThrow = false ∧ (x.callInfo nid).noReturn = false ∧
    (x.callInfo nid).virtualStub = false ∧ (x.callInfo nid).unmanaged = false := by
  obtain ⟨b, f, n, v2, d, u, a, e, m⟩ := K hns
  exact ⟨b, f.trans hfg, n.trans hnr, v2.trans hv, u.trans hu⟩

set_option maxHeartbeats 1600000 in
theorem vsCore_keepsW {callId : NodeId} {x : LowState}
    (hca : (x.callInfo callId).callAddr ≠ some callId) :
    KeepsCallW callId x (lowerVirtualStubCallCore x callId).1 := by
  unfold lowerVirtualStubCallCore
  dsimp only
  refine KeepsCallW_trans ?_ (keepsW_modifyNode_mapCall _ _ _ _ _ (fun n => rfl)
    (fun c => rfl) (fun c => rfl))
  split
  · split
    · split
      · rename_i heq h2
        refine keepsW_vs_discard_erase _ _ ?_ heq hca
        refine KeepsCall_trans ?_ (keeps_insertBefore _ _ _ _)
        refine KeepsCall_trans ?_ (keeps_pushNode _ _ _)
        refine KeepsCall_trans ?_ (keeps_modifyNode_mapCall _ _ _ _ _ (fun n => rfl)
          (fun c => rfl) (fun c => rfl) (fun c => rfl) (fun c => rfl) (fun c => rfl)
          (fun c => rfl) (fun c => rfl))
        refine KeepsCall_trans ?_ (keeps_insertBefore _ _ _ _)
        refine KeepsCall_trans ?_ (keeps_pushNode _ _ _)
        exact keeps_representAsLclVar _ _ _ _
      · refine KeepsCallW_of ?_
        refine KeepsCall_trans ?_ (keeps_modifyNode_callEq _ _ _ _ (fun n => rfl))
        refine KeepsCall_trans ?_ (keeps_insertBefore _ _ _ _)
        refine KeepsCall_trans ?_ (keeps_pushNode _ _ _)
        refine KeepsCall_trans ?_ (keeps_modifyNode_mapCall _ _ _ _ _ (fun n => rfl)
          (fun c => rfl) (fun c => rfl) (fun c => rfl) (fun c => rfl) (fun c => rfl)
          (fun c => rfl) (fun c => rfl))
        refine KeepsCall_trans ?_ (keeps_insertBefore _ _ _ _)
        refine KeepsCall_trans ?_ (keeps_pushNode _ _ _)
        exact keeps_representAsLclVar _ _ _ _
    · refine KeepsCallW_of ?_
      refine KeepsCall_trans ?_ (keeps_insertBefore _ _ _ _)
      refine KeepsCall_trans ?_ (keeps_pushNode _ _ _)
      refine KeepsCall_trans ?_ (keeps_modifyNode_mapCall _ _ _ _ _ (fun n => rfl)
        (fun c => rfl) (fun c => rfl) (fun c => rfl) (fun c => rfl) (fun c => rfl)
        (fun c => rfl) (fun c => rfl))
      refine KeepsCall_trans ?_ (keeps_insertBefore _ _ _ _)
      refine KeepsCall_trans ?_ (keeps_pushNode _ _ _)
      exact keeps_representAsLclVar _ _ _ _
  · refine KeepsCallW_of ?_
    refine KeepsCall_trans ?_ (keeps_insertBefore _ _ _ _)
    refine KeepsCall_trans ?_ (keeps_pushNode _ _ _)
    refine KeepsCall_trans ?_ (keeps_modifyNode_mapCall _ _ _ _ _ (fun n => rfl)
      (fun c => rfl) (fun c => rfl) (fun c => rfl) (fun c => rfl) (fun c => rfl)
      (fun c => rfl) (fun c => rfl))
    refine KeepsCall_trans ?_ (keeps_insertBefore _ _ _ _)
    refine KeepsCall_trans ?_ (keeps_pushNode _ _ _)
    exact keeps_representAsLclVar _ _ _ _

theorem representAsLclVar_size (st : LowState) (u : NodeId) (e : Nat) :
    st.arena.size ≤ (representAsLclVar st u e).1.arena.size := by
  unfold representAsLclVar replaceWithLclVar
  dsimp only
  split
  · exact Nat.le_refl _
  · simp only [LowState.modifyNode, LowState.insertBefore, LowState.insertAfter,
      LowState.pushNode, Array.size_modify, Array.size_push]
    omega

set_option maxHeartbeats 1600000 in
theorem vsCore_stub {callId : NodeId} {x : LowState} (hsx : callId < x.arena.size) :
    (lowerVirtualStubCallCore x callId).1.callInfo (lowerVirtualStubCallCore x callId).2 =
      { argMeta := [{}, {}],
        helper := some CorInfoHelpFunc.LLVM_RESOLVE_INTERFACE_CALL_TARGET,
        callKind := CallKind.helperCall } ∧
    (lowerVirtualStubCallCore x callId).2 < (lowerVirtualStubCallCore x callId).1.arena.size := by
  unfold lowerVirtualStubCallCore
  dsimp only
  constructor
  · rw [callInfo_modify_of_ne]
    · split
      · split
        · split
          · simp only [LowState.callInfo, LowState.node, LowState.insertBefore,
              LowState.pushNode, LowState.modifyNode]
            rw [arrGetD_push_eq]
            rfl
          · rw [callInfo_modify_callEq]
            · simp only [LowState.callInfo, LowState.node, LowState.insertBefore,
                LowState.pushNode, LowState.modifyNode]
              rw [arrGetD_push_eq]
              rfl
            · exact fun n => rfl
        · simp only [LowState.callInfo, LowState.node, LowState.insertBefore,
            LowState.pushNode, LowState.modifyNode]
          rw [arrGetD_push_eq]
          rfl
      · simp only [LowState.callInfo, LowState.node, LowState.insertBefore,
          LowState.pushNode, LowState.modifyNode]
        rw [arrGetD_push_eq]
        rfl
    · refine Nat.ne_of_lt (Nat.lt_of_lt_of_le hsx ?_)
      simp only [LowState.modifyNode, LowState.insertBefore, LowState.pushNode,
        Array.size_modify, Array.size_push]
      exact Nat.le_trans (representAsLclVar_size _ _ _) (Nat.le_succ _)
  · split
    · split
      · split
        · simp only [LowState.modifyNode, LowState.insertBefore, LowState.pushNode,
            Array.size_modify, Array.size_push]
          exact Nat.lt_succ_self _
        · simp only [LowState.modifyNode, LowState.insertBefore, LowState.pushNode,
            Array.size_modify, Array.size_push]
          exact Nat.lt_succ_self _
      · simp only [LowState.modifyNode, LowState.insertBefore, LowState.pushNode,
          Array.size_modify, Array.size_push]
        exact Nat.lt_succ_self _
    · simp only [LowState.modifyNode, LowState.insertBefore, LowState.pushNode,
        Array.size_modify, Array.size_push]
      exact Nat.lt_succ_self _

theorem lowerCallF_succ (fuel : Nat) (st : LowState) (callId : NodeId) :
    lowerCallF (fuel + 1) st callId = (do
      let ci0 := st.callInfo callId
      let st ←
        if ci0.helper == some .RETHROW then lowerRethrow st callId
        else if ci0.helper == some .OVERFLOW && ci0.argMeta.length != 0 then
          let argId := (st.node callId).operands.getD 0 0
          let st := { st with range := st.range.erase argId }
          pure (st.modifyNode callId fun n =>
            { n with operands := n.operands.drop 1,
                     call := n.call.map (fun c => { c with argMeta := c.argMeta.drop 1 }) })
        else pure st
      let st :=
        if (st.callInfo callId).needsNullCheck || (st.callInfo callId).virtualStub then
          insertNullCheckForCall st callId
        else st
      let st ←
        if (st.callInfo callId).virtualStub then do
          let r := lowerVirtualStubCallCore st callId
          lowerCallF fuel r.1 r.2
        else if (st.callInfo callId).delegateInvoke then
          pure (lowerDelegateInvoke st callId)
        else pure st
      let st := lowerCallReturn st callId
      let st ← lowerCallToShadowStack st callId
      let st ←
        if (st.callInfo callId).unmanaged then do
          let st := lowerUnmanagedCallAccessor st callId
          if !(st.callInfo callId).suppressGCTransition then do
            let r := insertPInvokeBegin st callId
            let st ← lowerLocal r.1 r.2.1
            let st ← lowerCallF fuel st r.2.2
            pure (insertPInvokeEnd st callId)
          else pure st
        else pure st
      let ciEnd := st.callInfo callId
      if ciEnd.fgIsThrow || ciEnd.noReturn then
        let st := truncateRangeAfterNode st callId
        if st.blockKind != .throw then pure { st with blockKind := .throw }
        else pure st
      else pure st) := rfl

theorem keeps_propagate {callId : NodeId} {st s : LowState}
    (K : KeepsCall callId st s)
    (hsize : callId < st.arena.size) (hmem : callId ∈ st.range)
    (hthrow : ((st.callInfo callId).fgIsThrow || (st.callInfo callId).noReturn) = true)
    (hvs : (st.callInfo callId).virtualStub = false)
    (hunm : (st.callInfo callId).unmanaged = false) :
    callId < s.arena.size ∧ callId ∈ s.range ∧
    ((s.callInfo callId).fgIsThrow || (s.callInfo callId).noReturn) = true ∧
    (s.callInfo callId).virtualStub = false ∧
    (s.callInfo callId).unmanaged = false := by
  obtain ⟨b, f, n, v, d, u, a, e, m⟩ := K hsize
  exact ⟨b, m hmem, by rw [f, n]; exact hthrow, by rw [v]; exact hvs,
    by rw [u]; exact hunm⟩

set_option maxHeartbeats 1600000 in
theorem benign_tail (U : LowState → Except LowerFatal LowState)
    {callId nid : NodeId} {st0 x s : LowState}
    (hns : nid < st0.arena.size)
    (hfg : (st0.callInfo nid).fgIsThrow = false)
    (hnr : (st0.callInfo nid).noReturn = false)
    (hv : (st0.callInfo nid).virtualStub = false)
    (hu : (st0.callInfo nid).unmanaged = false)
    (Kc : KeepsCall callId st0 x) (Kn : KeepsCall nid st0 x)
    (h : (lowerCallToShadowStack (lowerCallReturn x nid) nid >>= fun s2 =>
          if (s2.callInfo nid).unmanaged = true then U s2
          else pure s2 >>= fun y =>
            if ((y.callInfo nid).fgIsThrow || (y.callInfo nid).noReturn) = true then
              if ((truncateRangeAfterNode y nid).blockKind != BBKind.throw) = true then
                pure { truncateRangeAfterNode y nid with blockKind := BBKind.throw }
              else pure (truncateRangeAfterNode y nid)
            else pure y) = .ok s) :
    KeepsCall callId st0 s := by
  obtain ⟨s2, hs2, h⟩ := except_bind_ok h
  have Kc2 : KeepsCall callId st0 s2 :=
    KeepsCall_trans Kc (KeepsCall_trans (keeps_lowerCallReturn _ _ _)
      (keeps_lowerCallToShadowStack hs2))
  have Kn2 : KeepsCall nid st0 s2 :=
    KeepsCall_trans Kn (KeepsCall_trans (keeps_lowerCallReturn _ _ _)
      (keeps_lowerCallToShadowStack hs2))
  obtain ⟨b2, hf2, hn2, hv2, hu2⟩ := keeps_propagate_false Kn2 hns hfg hnr hv hu
  dsimp only at h
  rw [hu2] at h
  simp only [Bool.false_eq_true, if_false] at h
  obtain ⟨y, hpy, h⟩ := except_bind_ok h
  have e := Except.ok.inj hpy
  subst e
  rw [hf2, hn2] at h
  simp only [Bool.or_self, Bool.false_eq_true, if_false] at h
  have e2 := Except.ok.inj h
  subst e2
  exact Kc2

set_option maxHeartbeats 1600000 in
theorem benign_mid (V : Except LowerFatal LowState)
    (U : LowState → Except LowerFatal LowState)
    {callId nid : NodeId} {st0 x s : LowState}
    (hns : nid < st0.arena.size)
    (hfg : (st0.callInfo nid).fgIsThrow = false)
    (hnr : (st0.callInfo nid).noReturn = false)
    (hv : (st0.callInfo nid).virtualStub = false)
    (hu : (st0.callInfo nid).unmanaged = false)
    (Kc : KeepsCall callId st0 x) (Kn : KeepsCall nid st0 x)
    (h : (if (x.callInfo nid).virtualStub = true then V
          else if (x.callInfo nid).delegateInvoke = true then
            pure (lowerDelegateInvoke x nid) >>= fun y =>
              lowerCallToShadowStack (lowerCallReturn y nid) nid >>= fun s2 =>
                if (s2.callInfo nid).unmanaged = true then U s2
                else pure s2 >>= fun y2 =>
                  if ((y2.callInfo nid).fgIsThrow || (y2.callInfo nid).noReturn) = true then
                    if ((truncateRangeAfterNode y2 nid).blockKind != BBKind.throw) = true then
                      pure { truncateRangeAfterNode y2 nid with blockKind := BBKind.throw }
                    else pure (truncateRangeAfterNode y2 nid)
                  else pure y2
          else
            pure x >>= fun y =>
              lowerCallToShadowStack (lowerCallReturn y nid) nid >>= fun s2 =>
                if (s2.callInfo nid).unmanaged = true then U s2
                else pure s2 >>= fun y2 =>
                  if ((y2.callInfo nid).fgIsThrow || (y2.callInfo nid).noReturn) = true then
                    if ((truncateRangeAfterNode y2 nid).blockKind != BBKind.throw) = true then
                      pure { truncateRangeAfterNode y2 nid with blockKind := BBKind.throw }
                    else pure (truncateRangeAfterNode y2 nid)
                  else pure y2) = .ok s) :
    KeepsCall callId st0 s := by
  obtain ⟨bx, hfx, hnx, hvx, hux⟩ := keeps_propagate_false Kn hns hfg hnr hv hu
  rw [hvx] at h
  simp only [Bool.false_eq_true, if_false] at h
  split at h
  · obtain ⟨y, hpy, h⟩ := except_bind_ok h
    have ey := Except.ok.inj hpy
    exact benign_tail U hns hfg hnr hv hu
      (KeepsCall_trans Kc (ey ▸ keeps_lowerDelegateInvoke callId x nid))
      (KeepsCall_trans Kn (ey ▸ keeps_lowerDelegateInvoke nid x nid)) h
  · obtain ⟨y, hpy, h⟩ := except_bind_ok h
    have ey := Except.ok.inj hpy
    exact benign_tail U hns hfg hnr hv hu
      (KeepsCall_trans Kc (ey ▸ KeepsCall_refl callId x))
      (KeepsCall_trans Kn (ey ▸ KeepsCall_refl nid x)) h

set_option maxHeartbeats 3200000 in
theorem keeps_lowerCallF_benign {callId nid : NodeId} (fuel : Nat) {st0 s : LowState}
    (hns : nid < st0.arena.size)
    (hfg : (st0.callInfo nid).fgIsThrow = false)
    (hnr : (st0.callInfo nid).noReturn = false)
    (hv : (st0.callInfo nid).virtualStub = false)
    (hu : (st0.callInfo nid).unmanaged = false)
    (hh2 : ((st0.callInfo nid).helper == some CorInfoHelpFunc.OVERFLOW &&
        (st0.callInfo nid).argMeta.length != 0) = false)
    (h : lowerCallF fuel st0 nid = .ok s) :
    KeepsCall callId st0 s := by
  cases fuel with
  | zero => exact Except.noConfusion h
  | succ f =>
    rw [lowerCallF_succ] at h
    dsimp only at h
    by_cases hc1 : ((st0.callInfo nid).helper == some CorInfoHelpFunc.RETHROW) = true
    case pos =>
      rw [if_pos hc1] at h
      obtain ⟨s1, h1, h⟩ := except_bind_ok h
      have K1c : KeepsCall callId st0 s1 := keeps_lowerRethrow h1
      have K1n : KeepsCall nid st0 s1 := keeps_lowerRethrow h1
      have K2c : KeepsCall callId s1
          (if ((s1.callInfo nid).needsNullCheck ||
                (s1.callInfo nid).virtualStub) = true then
            insertNullCheckForCall s1 nid
          else s1) := by
        split
        · exact keeps_insertNullCheckForCall _ _ _
        · exact KeepsCall_refl _ _
      have K2n : KeepsCall nid s1
          (if ((s1.callInfo nid).needsNullCheck ||
                (s1.callInfo nid).virtualStub) = true then
            insertNullCheckForCall s1 nid
          else s1) := by
        split
        · exact keeps_insertNullCheckForCall _ _ _
        · exact KeepsCall_refl _ _
      exact benign_mid _ _ hns hfg hnr hv hu
        (KeepsCall_trans K1c K2c) (KeepsCall_trans K1n K2n) h
    case neg =>
      rw [if_neg hc1] at h
      rw [hh2] at h
      simp only [Bool.false_eq_true, if_false] at h
      obtain ⟨s1, h1, h⟩ := except_bind_ok h
      have e := Except.ok.inj h1
      subst e
      have K2c : KeepsCall callId st0
          (if ((st0.callInfo nid).needsNullCheck ||
                (st0.callInfo nid).virtualStub) = true then
            insertNullCheckForCall st0 nid
          else st0) := by
        split
        · exact keeps_insertNullCheckForCall _ _ _
        · exact KeepsCall_refl _ _
      have K2n : KeepsCall nid st0
          (if ((st0.callInfo nid).needsNullCheck ||
                (st0.callInfo nid).virtualStub) = true then
            insertNullCheckForCall st0 nid
          else st0) := by
        split
        · exact keeps_insertNullCheckForCall _ _ _
        · exact KeepsCall_refl _ _
      exact benign_mid _ _ hns hfg hnr hv hu K2c K2n h

theorem c7_final {callId : NodeId} {st y st' : LowState}
    (hsx : callId < st.arena.size) (hmx : callId ∈ st.range)
    (htx : ((st.callInfo callId).fgIsThrow || (st.callInfo callId).noReturn) = true)
    (W : KeepsCallW callId st y)
    (h : ((if ((y.callInfo callId).fgIsThrow || (y.callInfo callId).noReturn) = true then
          if ((truncateRangeAfterNode y callId).blockKind != BBKind.throw) = true then
            pure { truncateRangeAfterNode y callId with blockKind := BBKind.throw }
          else pure (truncateRangeAfterNode y callId)
        else pure y) : Except LowerFatal LowState) = .ok st') :
    st'.blockKind = .throw ∧ st'.range.getLast? = some callId := by
  obtain ⟨b, m, t⟩ := keepsW_propagate W hsx hmx htx
  rw [t, if_pos rfl] at h
  split at h
  · have e := Except.ok.inj h
    subst e
    exact ⟨rfl, truncateRangeAfterNode_getLast _ _ m⟩
  · rename_i hbk
    have e := Except.ok.inj h
    subst e
    exact ⟨by simpa using hbk, truncateRangeAfterNode_getLast _ _ m⟩

set_option maxHeartbeats 3200000 in
theorem c7_tail (fuel : Nat) {callId : NodeId} {st x st' : LowState}
    (hsx : callId < st.arena.size) (hmx : callId ∈ st.range)
    (htx : ((st.callInfo callId).fgIsThrow || (st.callInfo callId).noReturn) = true)
    (W : KeepsCallW callId st x)
    (h : (lowerCallToShadowStack (lowerCallReturn x callId) callId >>= fun s =>
          if (s.callInfo callId).unmanaged = true then
            if (!((lowerUnmanagedCallAccessor s callId).callInfo callId).suppressGCTransition) = true then
              lowerLocal (insertPInvokeBegin (lowerUnmanagedCallAccessor s callId) callId).1
                  (insertPInvokeBegin (lowerUnmanagedCallAccessor s callId) callId).2.1 >>= fun s1 =>
                lowerCallF fuel s1
                    (insertPInvokeBegin (lowerUnmanagedCallAccessor s callId) callId).2.2 >>= fun s2 =>
                  pure (insertPInvokeEnd s2 callId) >>= fun y =>
                    if ((y.callInfo callId).fgIsThrow || (y.callInfo callId).noReturn) = true then
                    if ((truncateRangeAfterNode y callId).blockKind != BBKind.throw) = true then
                      pure { truncateRangeAfterNode y callId with blockKind := BBKind.throw }
                    else pure (truncateRangeAfterNode y callId)
                  else pure y
            else
              pure (lowerUnmanagedCallAccessor s callId) >>= fun y =>
                  if ((y.callInfo callId).fgIsThrow || (y.callInfo callId).noReturn) = true then
                    if ((truncateRangeAfterNode y callId).blockKind != BBKind.throw) = true then
                      pure { truncateRangeAfterNode y callId with blockKind := BBKind.throw }
                    else pure (truncateRangeAfterNode y callId)
                  else pure y
          else
            pure s >>= fun y =>
                if ((y.callInfo callId).fgIsThrow || (y.callInfo callId).noReturn) = true then
                    if ((truncateRangeAfterNode y callId).blockKind != BBKind.throw) = true then
                      pure { truncateRangeAfterNode y callId with blockKind := BBKind.throw }
                    else pure (truncateRangeAfterNode y callId)
                  else pure y) = .ok st') :
    st'.blockKind = .throw ∧ st'.range.getLast? = some callId := by
  obtain ⟨s, hs, h⟩ := except_bind_ok h
  have Ws : KeepsCallW callId st s :=
    KeepsCallW_trans W (KeepsCallW_of (KeepsCall_trans (keeps_lowerCallReturn _ _ _)
      (keeps_lowerCallToShadowStack hs)))
  dsimp only at h
  split at h
  · split at h
    · obtain ⟨s1, hloc, h⟩ := except_bind_ok h
      obtain ⟨hpbI, hpbS⟩ :=
        pinvokeBegin_callInfo (lowerUnmanagedCallAccessor s callId) callId
      have KlocC : KeepsCall callId
          (insertPInvokeBegin (lowerUnmanagedCallAccessor s callId) callId).1 s1 :=
        keeps_lowerLocal hloc
      have KlocN := @keeps_lowerLocal
        (insertPInvokeBegin (lowerUnmanagedCallAccessor s callId) callId).2.2 _ _ _ hloc
      obtain ⟨b1, f1, n1, v1, d1, u1, a1, e1, m1⟩ := KlocN hpbS
      obtain ⟨s2, hrec, h⟩ := except_bind_ok h
      have Krec : KeepsCall callId s1 s2 := keeps_lowerCallF_benign fuel b1
        (by rw [f1, hpbI]) (by rw [n1, hpbI]) (by rw [v1, hpbI]) (by rw [u1, hpbI])
        (by rw [e1, hpbI]; rfl) hrec
      obtain ⟨y, hpy, h⟩ := except_bind_ok h
      have ey := Except.ok.inj hpy
      have Wy : KeepsCallW callId st y :=
        KeepsCallW_trans Ws (KeepsCallW_of (KeepsCall_trans
          (KeepsCall_trans (keeps_lowerUnmanagedCallAccessor _ _ _)
            (keeps_insertPInvokeBegin _ _ _))
          (KeepsCall_trans KlocC (KeepsCall_trans Krec
            (ey ▸ keeps_insertPInvokeEnd callId s2 callId)))))
      exact c7_final hsx hmx htx Wy h
    · obtain ⟨y, hpy, h⟩ := except_bind_ok h
      have ey := Except.ok.inj hpy
      have Wy : KeepsCallW callId st y :=
        KeepsCallW_trans Ws
          (KeepsCallW_of (ey ▸ keeps_lowerUnmanagedCallAccessor callId s callId))
      exact c7_final hsx hmx htx Wy h
  · obtain ⟨y, hpy, h⟩ := except_bind_ok h
    have ey := Except.ok.inj hpy
    have Wy : KeepsCallW callId st y :=
      KeepsCallW_trans Ws (KeepsCallW_of (ey ▸ KeepsCall_refl callId s))
    exact c7_final hsx hmx htx Wy h

set_option maxHeartbeats 3200000 in
theorem c7_mid (fuel : Nat) {callId : NodeId} {st x st' : LowState}
    (hsx : callId < st.arena.size) (hmx : callId ∈ st.range)
    (htx : ((st.callInfo callId).fgIsThrow || (st.callInfo callId).noReturn) = true)
    (hca : (st.callInfo callId).callAddr ≠ some callId)
    (K : KeepsCall callId st x)
    (h : (if (x.callInfo callId).virtualStub = true then
          lowerCallF fuel (lowerVirtualStubCallCore x callId).1
              (lowerVirtualStubCallCore x callId).2 >>= fun y3 =>
            lowerCallToShadowStack (lowerCallReturn y3 callId) callId >>= fun s =>
          if (s.callInfo callId).unmanaged = true then
            if (!((lowerUnmanagedCallAccessor s callId).callInfo callId).suppressGCTransition) = true then
              lowerLocal (insertPInvokeBegin (lowerUnmanagedCallAccessor s callId) callId).1
                  (insertPInvokeBegin (lowerUnmanagedCallAccessor s callId) callId).2.1 >>= fun s1 =>
                lowerCallF fuel s1
                    (insertPInvokeBegin (lowerUnmanagedCallAccessor s callId) callId).2.2 >>= fun s2 =>
                  pure (insertPInvokeEnd s2 callId) >>= fun y =>
                    if ((y.callInfo callId).fgIsThrow || (y.callInfo callId).noReturn) = true then
                    if ((truncateRangeAfterNode y callId).blockKind != BBKind.throw) = true then
                      pure { truncateRangeAfterNode y callId with blockKind := BBKind.throw }
                    else pure (truncateRangeAfterNode y callId)
                  else pure y
            else
              pure (lowerUnmanagedCallAccessor s callId) >>= fun y =>
                  if ((y.callInfo callId).fgIsThrow || (y.callInfo callId).noReturn) = true then
                    if ((truncateRangeAfterNode y callId).blockKind != BBKind.throw) = true then
                      pure { truncateRangeAfterNode y callId with blockKind := BBKind.throw }
                    else pure (truncateRangeAfterNode y callId)
                  else pure y
          else
            pure s >>= fun y =>
                if ((y.callInfo callId).fgIsThrow || (y.callInfo callId).noReturn) = true then
                    if ((truncateRangeAfterNode y callId).blockKind != BBKind.throw) = true then
                      pure { truncateRangeAfterNode y callId with blockKind := BBKind.throw }
                    else pure (truncateRangeAfterNode y callId)
                  else pure y
        else if (x.callInfo callId).delegateInvoke = true then
          pure (lowerDelegateInvoke x callId) >>= fun y3 =>
            lowerCallToShadowStack (lowerCallReturn y3 callId) callId >>= fun s =>
          if (s.callInfo callId).unmanaged = true then
            if (!((lowerUnmanagedCallAccessor s callId).callInfo callId).suppressGCTransition) = true then
              lowerLocal (insertPInvokeBegin (lowerUnmanagedCallAccessor s callId) callId).1
                  (insertPInvokeBegin (lowerUnmanagedCallAccessor s callId) callId).2.1 >>= fun s1 =>
                lowerCallF fuel s1
                    (insertPInvokeBegin (lowerUnmanagedCallAccessor s callId) callId).2.2 >>= fun s2 =>
                  pure (insertPInvokeEnd s2 callId) >>= fun y =>
                    if ((y.callInfo callId).fgIsThrow || (y.callInfo callId).noReturn) = true then
                    if ((truncateRangeAfterNode y callId).blockKind != BBKind.throw) = true then
                      pure { truncateRangeAfterNode y callId with blockKind := BBKind.throw }
                    else pure (truncateRangeAfterNode y callId)
                  else pure y
            else
              pure (lowerUnmanagedCallAccessor s callId) >>= fun y =>
                  if ((y.callInfo callId).fgIsThrow || (y.callInfo callId).noReturn) = true then
                    if ((truncateRangeAfterNode y callId).blockKind != BBKind.throw) = true then
                      pure { truncateRangeAfterNode y callId with blockKind := BBKind.throw }
                    else pure (truncateRangeAfterNode y callId)
                  else pure y
          else
            pure s >>= fun y =>
                if ((y.callInfo callId).fgIsThrow || (y.callInfo callId).noReturn) = true then
                    if ((truncateRangeAfterNode y callId).blockKind != BBKind.throw) = true then
                      pure { truncateRangeAfterNode y callId with blockKind := BBKind.throw }
                    else pure (truncateRangeAfterNode y callId)
                  else pure y
        else
          pure x >>= fun y3 =>
            lowerCallToShadowStack (lowerCallReturn y3 callId) callId >>= fun s =>
          if (s.callInfo callId).unmanaged = true then
            if (!((lowerUnmanagedCallAccessor s callId).callInfo callId).suppressGCTransition) = true then
              lowerLocal (insertPInvokeBegin (lowerUnmanagedCallAccessor s callId) callId).1
                  (insertPInvokeBegin (lowerUnmanagedCallAccessor s callId) callId).2.1 >>= fun s1 =>
                lowerCallF fuel s1
                    (insertPInvokeBegin (lowerUnmanagedCallAccessor s callId) callId).2.2 >>= fun s2 =>
                  pure (insertPInvokeEnd s2 callId) >>= fun y =>
                    if ((y.callInfo callId).fgIsThrow || (y.callInfo callId).noReturn) = true then
                    if ((truncateRangeAfterNode y callId).blockKind != BBKind.throw) = true then
                      pure { truncateRangeAfterNode y callId with blockKind := BBKind.throw }
                    else pure (truncateRangeAfterNode y callId)
                  else pure y
            else
              pure (lowerUnmanagedCallAccessor s callId) >>= fun y =>
                  if ((y.callInfo callId).fgIsThrow || (y.callInfo callId).noReturn) = true then
                    if ((truncateRangeAfterNode y callId).blockKind != BBKind.throw) = true then
                      pure { truncateRangeAfterNode y callId with blockKind := BBKind.throw }
                    else pure (truncateRangeAfterNode y callId)
                  else pure y
          else
            pure s >>= fun y =>
                if ((y.callInfo callId).fgIsThrow || (y.callInfo callId).noReturn) = true then
                    if ((truncateRangeAfterNode y callId).blockKind != BBKind.throw) = true then
                      pure { truncateRangeAfterNode y callId with blockKind := BBKind.throw }
                    else pure (truncateRangeAfterNode y callId)
                  else pure y) = .ok st') :
    st'.blockKind = .throw ∧ st'.range.getLast? = some callId := by
  by_cases hvc : (x.callInfo callId).virtualStub = true
  · rw [if_pos hvc] at h
    obtain ⟨y, hrec, h⟩ := except_bind_ok h
    obtain ⟨bx, mx, tx, cax⟩ := keeps_propagateA K hsx hmx htx hca
    obtain ⟨hstubI, hstubS⟩ := @vsCore_stub callId x bx
    have Krec : KeepsCall callId (lowerVirtualStubCallCore x callId).1 y :=
      keeps_lowerCallF_benign fuel hstubS (by rw [hstubI]) (by rw [hstubI])
        (by rw [hstubI]) (by rw [hstubI]) (by rw [hstubI]; rfl) hrec
    have Wy : KeepsCallW callId st y :=
      KeepsCallW_trans (KeepsCallW_trans (KeepsCallW_of K) (vsCore_keepsW cax))
        (KeepsCallW_of Krec)
    exact c7_tail fuel hsx hmx htx Wy h
  · rw [if_neg hvc] at h
    split at h
    · obtain ⟨y, hpy, h⟩ := except_bind_ok h
      have ey := Except.ok.inj hpy
      have Wy : KeepsCallW callId st y :=
        KeepsCallW_trans (KeepsCallW_of K)
          (KeepsCallW_of (ey ▸ keeps_lowerDelegateInvoke callId x callId))
      exact c7_tail fuel hsx hmx htx Wy h
    · obtain ⟨y, hpy, h⟩ := except_bind_ok h
      have ey := Except.ok.inj hpy
      have Wy : KeepsCallW callId st y :=
        KeepsCallW_trans (KeepsCallW_of K) (KeepsCallW_of (ey ▸ KeepsCall_refl callId x))
      exact c7_tail fuel hsx hmx htx Wy h

/-! # Claim theorems -/

/-- C5: contrary to the claimed ordering, the lowering driver Llvm::Lower as
written runs the node-lowering dispatcher (lowerBlocks) while never invoking
the GC-liveness spiller (lowerSpillTempsLiveAcrossSafePoints) or the
shadow-stack assignment (lowerLocalsBeforeNodes / assignShadowStackOffsets)
at all: the pass trace contains the dispatcher and none of the other two.
This contradicts the source's own comment that the spiller is a pre-pass
done before general lowering (llvmlower.cpp lines 137-138); the driver sits
inside an unresolved merge conflict. -/
theorem lowerDriver_runs_dispatcher_without_spiller_or_offsets :
    LoweringPass.lowerBlocks ∈ LlvmLowerPassTrace ∧
    LoweringPass.lowerSpillTempsLiveAcrossSafePoints ∉ LlvmLowerPassTrace ∧
    LoweringPass.lowerLocalsBeforeNodes ∉ LlvmLowerPassTrace ∧
    LoweringPass.assignShadowStackOffsets ∉ LlvmLowerPassTrace := by
  decide

/-- C2: the live-set hash table is keyed by DeterministicNodeHashInfo, whose
hash is derived only from the instruction's value-type tag and operator tag
(their XOR) with plain identity as equality, and consequently a run of the
spiller does not depend on the memory addresses assigned to the IR nodes:
any two runs on the same input IR produce identical output. -/
theorem spiller_iteration_order_deterministic :
    (∀ node : GenTree,
      DeterministicNodeHashInfo.GetHashCode node = Nat.xor node.vtype.tag node.oper.tag) ∧
    (∀ left right : NodeId, DeterministicNodeHashInfo.Equals left right = (left == right)) ∧
    (∀ (addresses₁ addresses₂ : NodeId → Nat) (f : SpFunc),
      lowerSpillTempsOnMachineRun addresses₁ f = lowerSpillTempsOnMachineRun addresses₂ f) :=
  ⟨fun _ => rfl, fun _ _ => rfl, fun _ _ _ => rfl⟩

/-- C9: the struct-use normalizer is idempotent: on a use whose current
layout already produces the same low-level (LLVM) type as the required
target layout, normalizeStructUse performs no IR mutation and returns the
very node it was given. -/
theorem normalizeStructUse_noop_on_matching_layout
    (st : LowState) (userId : NodeId) (edgeIdx : Nat) (layout : ClassLayout)
    (h : st.oracles.getLlvmTypeForStruct
        ((st.node ((st.node userId).operands.getD edgeIdx 0)).layout.getD default) =
      st.oracles.getLlvmTypeForStruct layout) :
    normalizeStructUse st userId edgeIdx layout =
      .ok (st, (st.node userId).operands.getD edgeIdx 0) := by
  simp only [normalizeStructUse]
  rw [if_neg]
  intro hc
  exact hc.2 h

/-- Witness for C9 at a closed input: the GT_BLK use in structUseState has a
layout producing the same LLVM type (size 12) as the distinct target layout,
and normalization returns the state and node unchanged. -/
theorem normalizeStructUse_noop_witness :
    normalizeStructUse structUseState 0 0 { layoutId := 7, size := 12 } =
      .ok (structUseState, 1) := by
  exact normalizeStructUse_noop_on_matching_layout structUseState 0 0
    { layoutId := 7, size := 12 } (by rfl)

/-- C10: lowering a catch-argument node rewrites it into an indirection,
marked non-faulting, of the shadow-stack pointer at offset zero
(getCatchArgOffset = 0, so the address is the plain shadow-stack pointer);
it registers no null-reference fault for the block, and a subsequent
lowerIndir on the produced node would not either; and the rethrow path
reads the exception object from the same zero offset: its prepended
argument is the identically shaped shadow-stack address node. -/
theorem lowerCatchArg_nonfaulting_shadow_load
    (st : LowState) (nid : NodeId) (h : nid < st.arena.size) :
    getCatchArgOffset = 0 ∧
    (lowerCatchArg st nid).faultRefs = st.faultRefs ∧
    (lowerCatchArg st nid).node nid =
      { st.node nid with oper := .IND, nonFaulting := true,
                         operands := [st.arena.size] } ∧
    (lowerCatchArg st nid).node st.arena.size =
      { oper := .LCL_VAR, vtype := .I_IMPL, lclNum := st.shadowStackLclNum } ∧
    (lowerCatchArg st nid).range = insertBeforeNode st.range nid st.arena.size ∧
    lowerIndir (lowerCatchArg st nid) nid = lowerCatchArg st nid := by
  have hca : lowerCatchArg st nid = { st with
      arena := (st.arena.push
          { oper := .LCL_VAR, vtype := .I_IMPL, lclNum := st.shadowStackLclNum }).modify nid
        (fun n => { n with oper := .IND, nonFaulting := true,
                           operands := [st.arena.size] }),
      range := insertBeforeNode st.range nid st.arena.size } := rfl
  have hn : (lowerCatchArg st nid).node nid =
      { st.node nid with oper := .IND, nonFaulting := true,
                         operands := [st.arena.size] } := by
    rw [hca]
    exact arrGetD_push_modify_self _ _ _ _ _ h
  refine ⟨rfl, by rw [hca], hn, ?_, by rw [hca], ?_⟩
  · rw [hca]
    exact arrGetD_push_modify_size _ _ _ _ _ h
  · show lowerIndir _ nid = _
    unfold lowerIndir
    rw [show (lowerCatchArg st nid).node nid = _ from hn]
    simp

/-- Witness for C10 at a closed input: lowering the catch argument of
catchArgState registers no fault, produces a non-faulting IND of the
shadow-stack pointer, and is transparent to lowerIndir. -/
theorem lowerCatchArg_witness :
    (lowerCatchArg catchArgState 0).faultRefs = [] ∧
    (lowerCatchArg catchArgState 0).node 0 =
      { oper := .IND, vtype := .REF, operands := [1], nonFaulting := true,
        orderSideEff := true } ∧
    (lowerCatchArg catchArgState 0).node 1 =
      { oper := .LCL_VAR, vtype := .I_IMPL, lclNum := 3 } ∧
    lowerIndir (lowerCatchArg catchArgState 0) 0 = lowerCatchArg catchArgState 0 := by
  obtain ⟨-, h2, h3, h4, -, h6⟩ :=
    lowerCatchArg_nonfaulting_shadow_load catchArgState 0 (by decide)
  exact ⟨h2, h3, h4, h6⟩

/-- C6: lowering a rethrow helper call aborts with the fatal
implementation-limitation report when the current handler is not a catch
handler, and otherwise prepends the exception-object address — the
shadow-stack pointer at the catch-arg offset, materialized immediately
before the call — as the explicit first argument (of pointer type). -/
theorem lowerRethrow_fatal_or_prepends_excObj
    (st : LowState) (callId : NodeId) (hndIndex : Nat) (ht : EHHandlerType)
    (hh : st.blockHndIndex = some hndIndex)
    (hg : st.ehHandlers.get? hndIndex = some ht)
    (hlt : callId < st.arena.size) :
    (ht ≠ .hndCatch →
      lowerRethrow st callId = .error (.implLimitation "Nested rethrow")) ∧
    (ht = .hndCatch → ∃ st', lowerRethrow st callId = .ok st' ∧
      st'.node callId =
        { st.node callId with
            operands := st.arena.size :: (st.node callId).operands,
            call := (st.node callId).call.map (fun ci =>
              { ci with argMeta := ({ sigCorType := .PTR } : CallArgMeta) :: ci.argMeta }) } ∧
      st'.node st.arena.size =
        { oper := .LCL_VAR, vtype := .I_IMPL, lclNum := st.shadowStackLclNum } ∧
      st'.range = insertBeforeNode st.range callId st.arena.size ∧
      st'.faultRefs = st.faultRefs) := by
  rw [List.get?_eq_getElem?] at hg
  constructor
  · intro hne
    have hcatch : ht.HasCatchHandler = false := by
      cases ht <;> simp_all [EHHandlerType.HasCatchHandler]
    simp [lowerRethrow, hh, hg, hcatch]
  · intro heq
    subst heq
    simp only [lowerRethrow, List.get?_eq_getElem?, hh, hg,
      EHHandlerType.HasCatchHandler, Bool.not_true, Bool.false_eq_true, if_false]
    refine ⟨_, rfl, ?_, ?_, rfl, rfl⟩
    · exact arrGetD_push_modify_self _ _ _ _ _ hlt
    · exact arrGetD_push_modify_size _ _ _ _ _ hlt

/-- Witness for C6 at a closed input: the rethrow call of rethrowState (in a
catch handler) is lowered successfully, with the shadow-stack pointer
prepended as its single pointer-typed argument. -/
theorem lowerRethrow_witness :
    ∃ st', lowerRethrow rethrowState 0 = .ok st' ∧
      st'.node 0 =
        { oper := .CALL, vtype := .VOID, operands := [1],
          call := some { argMeta := [{ sigCorType := .PTR }],
                         helper := some .RETHROW } } ∧
      st'.node 1 = { oper := .LCL_VAR, vtype := .I_IMPL, lclNum := 3 } ∧
      st'.range = [1, 0] := by
  obtain ⟨-, hc⟩ :=
    lowerRethrow_fatal_or_prepends_excObj rethrowState 0 0 .hndCatch rfl rfl
      (by decide)
  obtain ⟨st', hok, hn, ha, hr, -⟩ := hc rfl
  exact ⟨st', hok, by rw [hn]; rfl, ha, by rw [hr]; rfl⟩

/-- C8: when the scan computes an empty shadow-stack local set but dynamic
stack allocation was observed and the target couples the dynamic stack to
the shadow stack, local classification forces exactly one padding slot: the
shadow stack holds exactly the one fresh local, typed TYP_REF, implicitly
referenced, and zero-initialized in the prolog. -/
theorem shadowStack_padding_slot
    (ehAnyFunclets : Bool) (s : LocalsState)
    (hempty : (scanLocalsBeforeNodes ehAnyFunclets s).shadowStackLocals = []) :
    (lowerLocalsBeforeNodes ehAnyFunclets true true s).shadowStackLocals =
      [(scanLocalsBeforeNodes ehAnyFunclets s).lvaTable.size] ∧
    (lowerLocalsBeforeNodes ehAnyFunclets true true s).lvaTable.getD
        (scanLocalsBeforeNodes ehAnyFunclets s).lvaTable.size default =
      { lvType := .REF, lvImplicitlyReferenced := true } ∧
    (lowerLocalsBeforeNodes ehAnyFunclets true true s).prolog =
      (scanLocalsBeforeNodes ehAnyFunclets s).prolog ++
        [((scanLocalsBeforeNodes ehAnyFunclets s).lvaTable.size, InitValue.zeroRefCon)] := by
  simp only [lowerLocalsBeforeNodes]
  rw [hempty]
  refine ⟨rfl, ?_, rfl⟩
  exact arrGetD_push_eq _ _ _

/-- C3: on a reverse-entry function with no pre-existing try regions, the
synthesizer leaves exactly one region in the table — a filter-kind region
spanning the whole original body (first block through last original block)
with no enclosing try or handler and zero filter/handler IL offsets — and
its filter and handler are two freshly appended throw-kind blocks carrying
catch kinds filter and filter-handler. -/
theorem addUnhandledException_fresh_region_table
    (s : EhState) (b0 : BasicBlock) (rest : List BasicBlock)
    (hrev : s.isReversePInvoke = true)
    (hb : s.blocks = b0 :: rest)
    (heh : s.ehTable = [])
    (hfirst : b0.tryIndex = none)
    (hfresh : ∀ b ∈ s.blocks, b.bid < s.nextBlockId) :
    (AddUnhandledExceptionHandler s).ehTable =
      [{ handlerType := .hndFilter,
         tryBeg := b0.bid,
         tryLast := ((b0 :: rest).getLast (by simp)).bid,
         filterBlk := s.nextBlockId,
         hndBeg := s.nextBlockId + 1,
         hndLast := s.nextBlockId + 1,
         enclosingTryIndex := none,
         enclosingHndIndex := none,
         tryBegOffset := b0.codeOffs,
         tryEndOffset := ((b0 :: rest).getLast (by simp)).codeOffsEnd,
         filterBegOffset := 0, hndBegOffset := 0, hndEndOffset := 0 }] ∧
    ∃ pre, (AddUnhandledExceptionHandler s).blocks =
        pre ++
          [{ bid := s.nextBlockId, kind := .throw, dontRemove := true,
             imported := true, tryIndex := none, hndIndex := some 0,
             catchTyp := some .filter,
             stmts := [.unhandledExceptionHelperCall] },
           { bid := s.nextBlockId + 1, kind := .throw, dontRemove := true,
             imported := true, tryIndex := none, hndIndex := some 0,
             catchTyp := some .filterHandler }] ∧
      pre.length = s.blocks.length := by
  simp only [AddUnhandledExceptionHandler, hb, hrev, hfirst, heh, Option.isSome_none,
    Bool.not_true, Bool.false_eq_true, if_false, List.find?, decide_True, List.map_nil,
    List.nil_append, List.length_nil]
  refine ⟨trivial, ?_⟩
  have hlt : ∀ b ∈ b0 :: rest, b.bid < s.nextBlockId := fun b hbm => hfresh b (hb ▸ hbm)
  have hb0lt : b0.bid < s.nextBlockId := hlt b0 (List.mem_cons_self b0 rest)
  have hlastmem : ((b0 :: rest).getLast (by simp)).bid ∈ (b0 :: rest).map BasicBlock.bid :=
    List.mem_map_of_mem _ (List.getLast_mem (by simp))
  rw [updates_pair_split (b0 :: rest) s.nextBlockId b0.bid
    ((b0 :: rest).getLast (by simp)).bid
    { bid := s.nextBlockId, kind := .throw }
    { bid := s.nextBlockId + 1, kind := .throw }
    (fun b => { b with dontRemove := true, tryBegFlag := true, imported := true, tryIndex := some 0, hndIndex := none })
    (fun b => { b with dontRemove := true, imported := true, tryIndex := none, hndIndex := some 0, catchTyp := some BBCatchTyp.filter })
    (fun b => { b with dontRemove := true, imported := true, tryIndex := none, hndIndex := some 0, catchTyp := some BBCatchTyp.filterHandler })
    (fun b => if b.tryIndex.isNone then { b with tryIndex := some 0 } else b)
    (fun b => { b with stmts := b.stmts ++ [EhStmt.unhandledExceptionHelperCall] })
    rfl rfl (fun _ => rfl) (fun _ => rfl) (fun _ => rfl)
    (fun b => by dsimp only; split <;> rfl)
    hlt hb0lt hlastmem]
  refine ⟨_, rfl, ?_⟩
  rw [updateBlock_length, mapThroughBlock_length, updateBlock_length]

/-- Witness for C3 at a closed input: a reverse-entry function with a single
block and an empty region table gets exactly one filter region spanning the
body, with the two appended throw blocks. -/
theorem addUnhandledException_fresh_witness :
    (AddUnhandledExceptionHandler ehFreshState).ehTable =
      [{ handlerType := .hndFilter, tryBeg := 0, tryLast := 0, filterBlk := 1,
         hndBeg := 2, hndLast := 2, enclosingTryIndex := none,
         enclosingHndIndex := none, tryBegOffset := 10, tryEndOffset := 20 }] ∧
    (AddUnhandledExceptionHandler ehFreshState).blocks.length = 3 := by
  obtain ⟨h1, pre, h2, h3⟩ := addUnhandledException_fresh_region_table ehFreshState
    { bid := 0, codeOffs := 10, codeOffsEnd := 20 } [] rfl rfl rfl rfl (by decide)
  refine ⟨h1, ?_⟩
  rw [h2]
  simp [h3, ehFreshState]

/-- C4: after the synthesizer runs on a reverse-entry function: the region
table grows by exactly one entry appended at the end, so the synthesized
region's index (the old table length) exceeds every pre-existing index; the
synthesized entry is a root region; every pre-existing region keeps its
index, those without an enclosing try now name the synthesized region as
enclosing try and the others are unchanged; and no two regions of the
resulting table share a try-begin block. -/
theorem addUnhandledException_index_nesting_distinct
    (s : EhState) (b0 : BasicBlock) (rest : List BasicBlock)
    (hrev : s.isReversePInvoke = true)
    (hb : s.blocks = b0 :: rest)
    (hfresh : ∀ b ∈ s.blocks, b.bid < s.nextBlockId)
    (hnodup : (s.blocks.map BasicBlock.bid).Nodup)
    (htbeg : ∀ d ∈ s.ehTable, ∃ b ∈ s.blocks, b.bid = d.tryBeg ∧ b.tryIndex.isSome = true)
    (hpair : (s.ehTable.map EHblkDsc.tryBeg).Nodup) :
    (AddUnhandledExceptionHandler s).ehTable.length = s.ehTable.length + 1 ∧
    (∃ dNew, (AddUnhandledExceptionHandler s).ehTable[s.ehTable.length]? = some dNew ∧
      dNew.enclosingTryIndex = none ∧ dNew.enclosingHndIndex = none) ∧
    (∀ (i : Nat) (d : EHblkDsc), s.ehTable[i]? = some d →
      (AddUnhandledExceptionHandler s).ehTable[i]? =
        some { d with enclosingTryIndex := some (d.enclosingTryIndex.getD s.ehTable.length) }) ∧
    ((AddUnhandledExceptionHandler s).ehTable.map EHblkDsc.tryBeg).Nodup := by
  have key : ∃ (A : List EHblkDsc) (dNew : EHblkDsc),
      (AddUnhandledExceptionHandler s).ehTable = A ++ [dNew] ∧
      A.length = s.ehTable.length ∧
      (∀ (i : Nat) (d : EHblkDsc), s.ehTable[i]? = some d →
        A[i]? = some { d with enclosingTryIndex := some (d.enclosingTryIndex.getD s.ehTable.length) }) ∧
      A.map EHblkDsc.tryBeg = s.ehTable.map EHblkDsc.tryBeg ∧
      dNew.enclosingTryIndex = none ∧ dNew.enclosingHndIndex = none ∧
      (∀ dd ∈ s.ehTable, dd.tryBeg ≠ dNew.tryBeg) := by
    by_cases hsplit : b0.tryIndex.isSome = true
    · simp only [AddUnhandledExceptionHandler, hb, hrev, hsplit, Bool.not_true,
        Bool.false_eq_true, if_false, if_true, ensureFirstBBisScratch]
      refine ⟨_, _, rfl, List.length_map _ _, ?_, ?_, rfl, rfl, ?_⟩
      · intro i d hd
        rw [List.getElem?_map, hd]
        obtain ⟨ht', tb, tl, fb, hb', hl, enc, ench, o1, o2, o3, o4, o5⟩ := d
        cases enc <;> rfl
      · rw [List.map_map]
        apply List.map_congr_left
        intro a _
        obtain ⟨ht', tb, tl, fb, hb', hl, enc, ench, o1, o2, o3, o4, o5⟩ := a
        cases enc <;> rfl
      · intro dd hdd hne
        obtain ⟨b, hbmem, hbid, -⟩ := htbeg dd hdd
        have hEq : dd.tryBeg = s.nextBlockId := hne
        have := hfresh b hbmem
        omega
    · simp only [AddUnhandledExceptionHandler, hb, hrev, hsplit, Bool.not_true,
        Bool.false_eq_true, if_false]
      refine ⟨_, _, rfl, List.length_map _ _, ?_, ?_, rfl, rfl, ?_⟩
      · intro i d hd
        rw [List.getElem?_map, hd]
        obtain ⟨ht', tb, tl, fb, hb', hl, enc, ench, o1, o2, o3, o4, o5⟩ := d
        cases enc <;> rfl
      · rw [List.map_map]
        apply List.map_congr_left
        intro a _
        obtain ⟨ht', tb, tl, fb, hb', hl, enc, ench, o1, o2, o3, o4, o5⟩ := a
        cases enc <;> rfl
      · intro dd hdd hne
        obtain ⟨b, hbmem, hbid, hbsome⟩ := htbeg dd hdd
        have hEq : dd.tryBeg = b0.bid := hne
        have hbb : b.bid = b0.bid := by rw [hbid, hEq]
        have hbeq : b = b0 :=
          List.inj_on_of_nodup_map hnodup hbmem
            (by rw [hb]; exact List.mem_cons_self _ _) hbb
        rw [hbeq] at hbsome
        exact hsplit hbsome
  obtain ⟨A, dNew, htab, hAlen, hAidx, hAbeg, hencT, hencH, hdisj⟩ := key
  refine ⟨?_, ⟨dNew, ?_, hencT, hencH⟩, ?_, ?_⟩
  · rw [htab]
    simp [hAlen]
  · rw [htab, ← hAlen]
    exact List.getElem?_concat_length _ _
  · intro i d hd
    rw [htab, List.getElem?_append_left]
    · exact hAidx i d hd
    · rw [hAlen]
      exact (List.getElem?_eq_some.mp hd).1
  · rw [htab]
    simp only [List.map_append, List.map_cons, List.map_nil]
    rw [hAbeg, List.nodup_append]
    refine ⟨hpair, by simp, ?_⟩
    intro a ha
    obtain ⟨dd, hdd, rfl⟩ := List.mem_map.mp ha
    simp only [List.mem_singleton]
    exact hdisj dd hdd

/-- Witness for C4 at a closed input: a reverse-entry function whose first
block already begins a try region of a single pre-existing catch region;
after synthesis the table has two entries, the old one re-nested under the
new root region, and try-begin blocks are pairwise distinct. -/
theorem addUnhandledException_nesting_witness :
    (AddUnhandledExceptionHandler ehNestedState).ehTable.length = 2 ∧
    (AddUnhandledExceptionHandler ehNestedState).ehTable[0]? =
      some { handlerType := .hndCatch, tryBeg := 0, tryLast := 0, hndBeg := 1,
             hndLast := 1, enclosingTryIndex := some 1 } ∧
    ((AddUnhandledExceptionHandler ehNestedState).ehTable.map EHblkDsc.tryBeg).Nodup := by
  obtain ⟨h1, -, h3, h4⟩ := addUnhandledException_index_nesting_distinct ehNestedState
    { bid := 0, tryIndex := some 0 } [{ bid := 1, hndIndex := some 0 }]
    rfl rfl (by decide) (by decide) (by decide) (by decide)
  refine ⟨h1, ?_, h4⟩
  have := h3 0 { handlerType := .hndCatch, tryBeg := 0, tryLast := 0, hndBeg := 1,
                 hndLast := 1 } rfl
  simpa using this

/-- Witness for C8 at a closed input: a function with no locals at all that
uses dynamic stack allocation gets exactly the one padding slot. -/
theorem shadowStack_padding_slot_witness :
    (lowerLocalsBeforeNodes false true true { lvaTable := #[] }).shadowStackLocals = [0] ∧
    (lowerLocalsBeforeNodes false true true { lvaTable := #[] }).lvaTable.getD 0 default =
      { lvType := .REF, lvImplicitlyReferenced := true } ∧
    (lowerLocalsBeforeNodes false true true { lvaTable := #[] }).prolog =
      [(0, InitValue.zeroRefCon)] := by
  obtain ⟨h1, h2, h3⟩ := shadowStack_padding_slot false { lvaTable := #[] } rfl
  exact ⟨h1, h2, h3⟩
/-- Processing a GC-relevant definition with no operands: it is marked live
and added to the live set with no slot assigned yet. -/
theorem spillNode_def_step (keyHash : Array GenTree → NodeId → Nat)
    (st : SpState) (range : List NodeId) (nid : NodeId) (d : GenTree)
    (ha : st.arena.getD nid default = d)
    (h1 : (d.oper == GOper.LCLHEAP) = false)
    (h2 : d.contained = false)
    (h3 : (d.oper == GOper.CALL) = false)
    (h4 : d.operands = [])
    (h5 : (d.IsValue && !d.unusedValue && isGcTemp d) = true) :
    spillProcessNode keyHash st range nid =
      ({ st with arena := st.arena.modify nid (fun n => { n with lirMark := true }),
                 liveGcDefs := liveAddOrUpdate st.liveGcDefs nid none }, range) := by
  unfold spillProcessNode
  simp only [ha, h1, h2, h3, h4, h5, Bool.false_and, Bool.false_eq_true, if_false,
    processUsesWorklist, processUserEdges, List.length_nil, List.range_zero,
    List.foldl_nil, List.nil_append, isPotentialGcSafePoint, if_true]
/-- Processing a potential GC safe point (a call without arguments or return
buffer) while one definition is live and unassigned: a fresh REF spill local
is grabbed, a store of the definition to it is inserted immediately after
the definition, and the slot is recorded against it. -/
theorem spillNode_safepoint_step (keyHash : Array GenTree → NodeId → Nat)
    (st : SpState) (range : List NodeId) (nid did : NodeId) (c dm : GenTree)
    (ha : st.arena.getD nid default = c)
    (h1 : (c.oper == GOper.LCLHEAP) = false)
    (h2 : c.contained = false)
    (h3 : (c.oper == GOper.CALL) = true)
    (h4 : c.hasRetBuffer = false)
    (h5 : c.operands = [])
    (h6 : (c.IsValue && !c.unusedValue && isGcTemp c) = false)
    (hl : st.liveGcDefs = [(did, none)])
    (hf : st.spillLclsRef = [])
    (hd : st.arena.getD did default = dm)
    (ht : dm.vtype = .REF) :
    spillProcessNode keyHash st range nid =
      ({ st with
          arena := st.arena.push
            { oper := .STORE_LCL_VAR, vtype := .REF, operands := [did],
              lclNum := st.lvaTable.size },
          lvaTable := st.lvaTable.push { lvType := .REF },
          liveGcDefs := [(did, some st.lvaTable.size)] },
       insertAfterNode range did st.arena.size) := by
  unfold spillProcessNode
  simp only [ha, h1, h2, h3, h4, h5, h6, hl, hf, hd, ht, Bool.and_false,
    Bool.false_eq_true, if_false, processUsesWorklist, processUserEdges,
    List.length_nil, List.range_zero, List.foldl_nil, List.nil_append,
    isPotentialGcSafePoint, Bool.true_and, List.length_cons, forceSpillLive,
    sortByKey, List.map_cons, List.map_nil, List.foldr_cons, List.foldr_nil,
    insertSortedByKey, List.foldl_cons, liveLookup, List.find?, beq_self_eq_true,
    Option.map_some, Option.getD_some, spillValue, getSpillLcl, liveAddOrUpdate,
    arrGetD_push_eq, if_true]
  rfl

/-- Processing a consumer of a live, spilled definition: the definition is
removed from the live set, the use is replaced with a load of the spill
local inserted immediately before the consumer, the slot is returned to the
REF free-list, and the liveness mark is cleared. -/
theorem spillNode_use_step (keyHash : Array GenTree → NodeId → Nat)
    (st : SpState) (range : List NodeId) (nid did L : NodeId) (u : GenTree)
    (ha : st.arena.getD nid default = u)
    (h1 : (u.oper == GOper.LCLHEAP) = false)
    (h2 : u.contained = false)
    (h3 : (u.oper == GOper.CALL && u.hasRetBuffer) = false)
    (h4 : u.operands = [did])
    (h5 : (u.IsValue && !u.unusedValue && isGcTemp u) = false)
    (hdc : (st.arena.getD did default).contained = false)
    (hdm : (st.arena.getD did default).lirMark = true)
    (hl : st.liveGcDefs = [(did, some L)])
    (hdesc : (st.lvaTable.getD L default).lvType = .REF) :
    spillProcessNode keyHash st range nid =
      ({ st with
          arena := ((st.arena.push
              { oper := .LCL_VAR, vtype := .REF, lclNum := L }).modify nid
              (fun n => { n with operands := n.operands.set 0 st.arena.size })).modify did
            (fun o => { o with lirMark := false }),
          liveGcDefs := [],
          spillLclsRef := L :: st.spillLclsRef },
       insertBeforeNode range nid st.arena.size) := by
  unfold spillProcessNode
  simp only [ha, h1, h2, h3, h4, h5, hl, Bool.false_eq_true, if_false,
    processUsesWorklist, processUserEdges, List.length_cons, List.length_nil,
    List.range_succ, List.range_zero, List.foldl_cons, List.foldl_nil, processOneEdge,
    List.getD_cons_zero, hdc, hdm, liveTryRemove, if_true, releaseSpillLcl,
    hdesc, beq_self_eq_true, List.nil_append, bne_self_eq_false, Bool.and_false,
    eq_self_iff_true]

/-- C1: on a block of the shape definition-of-REF; safe-point call; use, the
spiller inserts a store of the definition to a freshly grabbed REF spill
slot immediately after the definition, replaces the use with a load of that
same slot inserted immediately before the consuming node, and the slot ends
up on the reference free-list. -/
theorem spiller_def_call_use_scenario
    (d c u : GenTree) (lva : Array LclVarDsc)
    (hd1 : (d.oper == GOper.LCLHEAP) = false)
    (hd2 : d.contained = false)
    (hd3 : (d.oper == GOper.CALL) = false)
    (hd4 : d.operands = [])
    (hd5 : (d.IsValue && !d.unusedValue && isGcTemp d) = true)
    (hd6 : d.vtype = .REF)
    (hc1 : (c.oper == GOper.LCLHEAP) = false)
    (hc2 : c.contained = false)
    (hc3 : (c.oper == GOper.CALL) = true)
    (hc4 : c.hasRetBuffer = false)
    (hc5 : c.operands = [])
    (hc6 : (c.IsValue && !c.unusedValue && isGcTemp c) = false)
    (hu1 : (u.oper == GOper.LCLHEAP) = false)
    (hu2 : u.contained = false)
    (hu3 : (u.oper == GOper.CALL && u.hasRetBuffer) = false)
    (hu4 : u.operands = [0])
    (hu5 : (u.IsValue && !u.unusedValue && isGcTemp u) = false) :
    lowerSpillTempsLiveAcrossSafePoints
        { arena := #[d, c, u], blocks := [[0, 1, 2]], lvaTable := lva } =
      { func := { arena := #[{ d with lirMark := false }, c, { u with operands := [4] },
                    { oper := .STORE_LCL_VAR, vtype := .REF, operands := [0], lclNum := lva.size },
                    { oper := .LCL_VAR, vtype := .REF, lclNum := lva.size }],
                  blocks := [[0, 3, 1, 4, 2]],
                  lvaTable := lva.push { lvType := .REF } },
        spillLclsRef := [lva.size], spillLclsByref := [], liveGcDefs := [] } := by
  have s1 : spillProcessNode deterministicKeyHash
      { arena := #[d, c, u], lvaTable := lva } [0, 1, 2] 0 =
      ({ arena := #[{ d with lirMark := true }, c, u], lvaTable := lva,
         liveGcDefs := [(0, none)] }, [0, 1, 2]) := by
    rw [spillNode_def_step deterministicKeyHash
      { arena := #[d, c, u], lvaTable := lva } [0, 1, 2] 0 d rfl hd1 hd2 hd3 hd4 hd5]
    rfl
  have s2 : spillProcessNode deterministicKeyHash
      { arena := #[{ d with lirMark := true }, c, u], lvaTable := lva,
        liveGcDefs := [(0, none)] } [0, 1, 2] 1 =
      ({ arena := #[{ d with lirMark := true }, c, u,
           { oper := .STORE_LCL_VAR, vtype := .REF, operands := [0], lclNum := lva.size }],
         lvaTable := lva.push { lvType := .REF },
         liveGcDefs := [(0, some lva.size)] }, [0, 3, 1, 2]) := by
    rw [spillNode_safepoint_step deterministicKeyHash
      { arena := #[{ d with lirMark := true }, c, u], lvaTable := lva,
        liveGcDefs := [(0, none)] } [0, 1, 2] 1 0 c { d with lirMark := true }
      rfl hc1 hc2 hc3 hc4 hc5 hc6 rfl rfl rfl hd6]
    rfl
  have s3 : spillProcessNode deterministicKeyHash
      { arena := #[{ d with lirMark := true }, c, u,
          { oper := .STORE_LCL_VAR, vtype := .REF, operands := [0], lclNum := lva.size }],
        lvaTable := lva.push { lvType := .REF },
        liveGcDefs := [(0, some lva.size)] } [0, 3, 1, 2] 2 =
      ({ arena := #[{ d with lirMark := false }, c, { u with operands := u.operands.set 0 4 },
           { oper := .STORE_LCL_VAR, vtype := .REF, operands := [0], lclNum := lva.size },
           { oper := .LCL_VAR, vtype := .REF, lclNum := lva.size }],
         lvaTable := lva.push { lvType := .REF },
         liveGcDefs := [], spillLclsRef := [lva.size] }, [0, 3, 1, 4, 2]) := by
    rw [spillNode_use_step deterministicKeyHash
      { arena := #[{ d with lirMark := true }, c, u,
          { oper := .STORE_LCL_VAR, vtype := .REF, operands := [0], lclNum := lva.size }],
        lvaTable := lva.push { lvType := .REF },
        liveGcDefs := [(0, some lva.size)] } [0, 3, 1, 2] 2 0 lva.size u
      rfl hu1 hu2 hu3 hu4 hu5 hd2 rfl rfl (by rw [arrGetD_push_eq])]
    rfl
  unfold lowerSpillTempsLiveAcrossSafePoints lowerSpillTempsWithKeyInfo spillProcessRange
  simp only [List.foldl_cons, List.foldl_nil]
  rw [s1]
  dsimp only
  rw [s2]
  dsimp only
  rw [s3]
  simp only [hu4]
  rfl

theorem spiller_def_call_use_witness :
    lowerSpillTempsLiveAcrossSafePoints
      { arena := #[{ oper := .IND, vtype := .REF },
                   { oper := .CALL, vtype := .VOID, call := some {} },
                   { oper := .STOREIND, vtype := .VOID, operands := [0] }],
        blocks := [[0, 1, 2]], lvaTable := #[] } =
    { func := { arena := #[{ oper := .IND, vtype := .REF },
                           { oper := .CALL, vtype := .VOID, call := some {} },
                           { oper := .STOREIND, vtype := .VOID, operands := [4] },
                           { oper := .STORE_LCL_VAR, vtype := .REF, operands := [0], lclNum := 0 },
                           { oper := .LCL_VAR, vtype := .REF, lclNum := 0 }],
                blocks := [[0, 3, 1, 4, 2]], lvaTable := #[{ lvType := .REF }] },
      spillLclsRef := [0], spillLclsByref := [], liveGcDefs := [] } :=
  spiller_def_call_use_scenario
    { oper := .IND, vtype := .REF }
    { oper := .CALL, vtype := .VOID, call := some {} }
    { oper := .STOREIND, vtype := .VOID, operands := [0] }
    #[] rfl rfl rfl rfl rfl rfl rfl rfl rfl rfl rfl rfl rfl rfl rfl rfl rfl

set_option maxHeartbeats 3200000 in
/-- C7: a call that provably never returns (the fgIsThrow oracle answers
true, or the call is marked no-return) leaves, after any successful
lowerCall run - including the virtual-stub and unmanaged (PInvoke) paths,
whose recursive helper-call lowerings are covered as well - the current
block converted to the throw kind with the call as the last node of the
block's range: every node that followed it (the PInvoke-END transition
included) has been deleted. The two IR well-formedness side conditions say
the call node is not its own first operand nor its own indirection
target. -/
theorem lowerCall_noreturn_truncates_to_throw
    (st st' : LowState) (callId : NodeId)
    (hsize : callId < st.arena.size)
    (hmem : callId ∈ st.range)
    (hthrow : ((st.callInfo callId).fgIsThrow || (st.callInfo callId).noReturn) = true)
    (hargid : (st.node callId).operands.getD 0 0 ≠ callId)
    (hcaddr : (st.callInfo callId).callAddr ≠ some callId)
    (hok : lowerCall st callId = .ok st') :
    st'.blockKind = .throw ∧ st'.range.getLast? = some callId := by
  unfold lowerCall at hok
  have hok2 : lowerCallF (1 + 1) st callId = .ok st' := hok
  rw [lowerCallF_succ] at hok2
  dsimp only at hok2
  by_cases hc1 : ((st.callInfo callId).helper == some CorInfoHelpFunc.RETHROW) = true
  case pos =>
    rw [if_pos hc1] at hok2
    obtain ⟨s1, h1, hok3⟩ := except_bind_ok hok2
    have K1 : KeepsCall callId st s1 := keeps_lowerRethrow h1
    have K2 : KeepsCall callId s1
        (if ((s1.callInfo callId).needsNullCheck ||
              (s1.callInfo callId).virtualStub) = true then
          insertNullCheckForCall s1 callId
        else s1) := by
      split
      · exact keeps_insertNullCheckForCall _ _ _
      · exact KeepsCall_refl _ _
    exact c7_mid 1 hsize hmem hthrow hcaddr (KeepsCall_trans K1 K2) hok3
  case neg =>
    rw [if_neg hc1] at hok2
    by_cases hc2 : ((st.callInfo callId).helper == some CorInfoHelpFunc.OVERFLOW &&
      (st.callInfo callId).argMeta.length != 0) = true
    case pos =>
      rw [if_pos hc2] at hok2
      obtain ⟨s1, h1, hok3⟩ := except_bind_ok hok2
      have e := Except.ok.inj h1
      have Kerase : KeepsCall callId st
          { st with range := st.range.erase ((st.node callId).operands.getD 0 0) } :=
        fun hs => ⟨hs, rfl, rfl, rfl, rfl, rfl, rfl, rfl,
          fun hm2 => (List.mem_erase_of_ne (Ne.symm hargid)).mpr hm2⟩
      have K1 : KeepsCall callId st s1 := by
        refine e ▸ ?_
        exact KeepsCall_trans Kerase
          (keeps_modifyNode_mapCall _ _ _ _ _ (fun n => rfl) (fun c => rfl)
            (fun c => rfl) (fun c => rfl) (fun c => rfl) (fun c => rfl)
            (fun c => rfl) (fun c => rfl))
      have K2 : KeepsCall callId s1
          (if ((s1.callInfo callId).needsNullCheck ||
                (s1.callInfo callId).virtualStub) = true then
            insertNullCheckForCall s1 callId
          else s1) := by
        split
        · exact keeps_insertNullCheckForCall _ _ _
        · exact KeepsCall_refl _ _
      exact c7_mid 1 hsize hmem hthrow hcaddr (KeepsCall_trans K1 K2) hok3
    case neg =>
      rw [if_neg hc2] at hok2
      obtain ⟨s1, h1, hok3⟩ := except_bind_ok hok2
      have e := Except.ok.inj h1
      subst e
      have K2 : KeepsCall callId st
          (if ((st.callInfo callId).needsNullCheck ||
                (st.callInfo callId).virtualStub) = true then
            insertNullCheckForCall st callId
          else st) := by
        split
        · exact keeps_insertNullCheckForCall _ _ _
        · exact KeepsCall_refl _ _
      exact c7_mid 1 hsize hmem hthrow hcaddr K2 hok3

theorem lowerCall_noreturn_witness :
    ∃ st', lowerCall noReturnCallState 1 = .ok st' ∧
      st'.blockKind = .throw ∧ st'.range.getLast? = some 1 :=
  ⟨_, rfl, lowerCall_noreturn_truncates_to_throw noReturnCallState _ 1
    (by decide) (by decide) rfl (by decide) (by decide) rfl⟩

end LlvmLowering
